import Mathlib

/-!
Verification development for the microcosm hypervisor core.

The Rust sources under `src/microcosm/src/` are shallowly embedded:
guest physical memory is a length together with a byte function,
stateful code passes the state explicitly, fallible code returns
`Option`/`Except`-style values, and a Rust `panic!`/index-out-of-bounds
is a distinct `panicked` outcome.  Machine integers are `Nat` with an
explicit `% 2^w` wherever the source's (release-mode) wrapping overflow
can matter.
-/

namespace Microcosm

/-- Error kinds surfaced by the core (src/microcosm/src/lib.rs `Error`),
restricted to the variants the embedded functions can produce. -/
inductive Err where
  | invalidKernelImageFormat
  | outOfGuestMemory
  | cmdlineTooLong
  | initrdTooLarge
  | deviceRangeOverlap
  deriving DecidableEq, Repr

/-- Result of running a fallible Rust computation: normal return,
`Err(e)`, or a panic (index out of bounds / `unwrap` of `None`). -/
inductive Outcome (α : Type) where
  | ok (a : α)
  | err (e : Err)
  | panicked
  deriving Repr, DecidableEq

/-- Guest physical memory: a contiguous zero-initialized region of
`len` bytes (src/microcosm/src/memory.rs `Mmapped`), modelled as its
length plus a byte function (addresses `≥ len` are never meaningful). -/
structure Mem where
  len : Nat
  byte : Nat → Nat

/-- A byte string (`&[u8]` / `Vec<u8>` on the Rust side), in the same
length-plus-byte-function shape as guest memory. -/
structure ByteStr where
  len : Nat
  byte : Nat → Nat

/-- View a byte list as a `ByteStr` (indices past the end read 0). -/
def bytesOfList (l : List Nat) : ByteStr :=
  ⟨l.length, fun i => l.getD i 0⟩

/-- `CopyToGuest::copy_to_guest` (src/microcosm/src/memory.rs:101-111):
`memory.get_mut(addr..)` fails when `addr > memory.len()`, then
`write_to_prefix` fails when the suffix is shorter than the bytes;
both failures surface as `OutOfGuestMemory`.  On success the bytes are
written at `[addr, addr + bytes.len())` and nothing else changes. -/
def copy_to_guest (bytes : ByteStr) (memory : Mem) (addr : Nat) : Option Mem :=
  if addr ≤ memory.len then
    if bytes.len ≤ memory.len - addr then
      some ⟨memory.len, fun i =>
        if addr ≤ i ∧ i < addr + bytes.len then bytes.byte (i - addr)
        else memory.byte i⟩
    else none
  else none

/-- `u64::next_multiple_of` for `align ≥ 1`, before any overflow wrap. -/
def nextMul (c align : Nat) : Nat :=
  if c % align = 0 then c else c + (align - c % align)

/-- Address returned by `RangeAllocator::raw_alloc`
(src/microcosm/src/memory.rs:82-86): the cursor rounded up to `align`.
The `u64` rounding wraps modulo `2^64` in release builds. -/
def raw_alloc_addr (cursor size align : Nat) : Nat :=
  nextMul cursor align % 2 ^ 64

/-- Cursor after `RangeAllocator::raw_alloc`: `addr + size`, again with
`u64` wrap-around. -/
def raw_alloc_next (cursor size align : Nat) : Nat :=
  (raw_alloc_addr cursor size align + size) % 2 ^ 64

/-- Addresses returned by a sequence of `raw_alloc(size_i, align_i)`
calls starting from cursor `start` (requests given as `(size, align)`). -/
def allocRun (start : Nat) : List (Nat × Nat) → List Nat
  | [] => []
  | (size, align) :: rest =>
      raw_alloc_addr start size align ::
        allocRun (raw_alloc_next start size align) rest

/-- No `u64` overflow happens anywhere in the allocation sequence:
every rounded address and every advanced cursor stays below `2^64`. -/
def allocNoOverflow (start : Nat) : List (Nat × Nat) → Prop
  | [] => True
  | (size, align) :: rest =>
      nextMul start align + size < 2 ^ 64 ∧
        allocNoOverflow (nextMul start align + size) rest

instance allocNoOverflowDec :
    ∀ (start : Nat) (reqs : List (Nat × Nat)), Decidable (allocNoOverflow start reqs)
  | _, [] => isTrue trivial
  | start, (size, align) :: rest =>
      have : Decidable (allocNoOverflow (nextMul start align + size) rest) :=
        allocNoOverflowDec _ rest
      inferInstanceAs (Decidable (_ ∧ _))

lemma nextMul_le (c align : Nat) : c ≤ nextMul c align := by
  unfold nextMul
  split <;> omega

lemma nextMul_emod (c align : Nat) (h : 1 ≤ align) :
    nextMul c align % align = 0 := by
  unfold nextMul
  split
  · assumption
  · have h1 : c % align < align := Nat.mod_lt _ h
    have h3 := Nat.mod_add_div c align
    have h2 : c + (align - c % align) = align * (c / align) + align := by omega
    rw [h2, show align * (c / align) + align = align * (c / align + 1) by ring,
      Nat.mul_mod_right]

lemma allocRun_length (start : Nat) (reqs : List (Nat × Nat)) :
    (allocRun start reqs).length = reqs.length := by
  induction reqs generalizing start with
  | nil => rfl
  | cons r rest ih => simpa [allocRun] using ih _

lemma allocRun_ge (start : Nat) (reqs : List (Nat × Nat))
    (hno : allocNoOverflow start reqs) :
    ∀ a ∈ allocRun start reqs, start ≤ a := by
  induction reqs generalizing start with
  | nil => intro a ha; cases ha
  | cons r rest ih =>
      obtain ⟨size, align⟩ := r
      obtain ⟨h1, h2⟩ := hno
      intro a ha
      have haddr : raw_alloc_addr start size align = nextMul start align := by
        unfold raw_alloc_addr
        exact Nat.mod_eq_of_lt (by omega)
      have hnext : raw_alloc_next start size align = nextMul start align + size := by
        unfold raw_alloc_next
        rw [haddr]
        exact Nat.mod_eq_of_lt h1
      rcases ha with _ | ⟨_, hmem⟩
      · rw [haddr]; exact nextMul_le _ _
      · rw [hnext] at hmem
        have := ih _ h2 a hmem
        have hle := nextMul_le start align
        omega

lemma raw_alloc_next_eq (cursor size align : Nat)
    (h : nextMul cursor align + size < 2 ^ 64) :
    raw_alloc_next cursor size align = raw_alloc_addr cursor size align + size := by
  unfold raw_alloc_next raw_alloc_addr
  have h1 : nextMul cursor align % 2 ^ 64 = nextMul cursor align :=
    Nat.mod_eq_of_lt (by omega)
  rw [h1, Nat.mod_eq_of_lt h]

lemma allocRun_spec (start : Nat) (reqs : List (Nat × Nat))
    (haligns : ∀ r ∈ reqs, 1 ≤ r.2) (hno : allocNoOverflow start reqs) :
    List.Chain' (· ≤ ·) (allocRun start reqs) ∧
    List.Forall₂ (fun a r => a % r.2 = 0) (allocRun start reqs) reqs ∧
    List.Chain' (fun (p q : Nat × (Nat × Nat)) => p.1 + p.2.1 ≤ q.1)
      ((allocRun start reqs).zip reqs) := by
  induction reqs generalizing start with
  | nil => exact ⟨List.chain'_nil, List.Forall₂.nil, List.chain'_nil⟩
  | cons r rest ih =>
      obtain ⟨size, align⟩ := r
      obtain ⟨h1, h2⟩ := hno
      have h1' : 1 ≤ align := haligns (size, align) (List.Mem.head _)
      have haddr : raw_alloc_addr start size align = nextMul start align := by
        unfold raw_alloc_addr
        exact Nat.mod_eq_of_lt (by omega)
      have hnext : raw_alloc_next start size align = nextMul start align + size := by
        unfold raw_alloc_next
        rw [haddr]
        exact Nat.mod_eq_of_lt h1
      have h2' : allocNoOverflow (raw_alloc_next start size align) rest := by
        rw [hnext]; exact h2
      obtain ⟨c1, c2, c3⟩ := ih (raw_alloc_next start size align)
        (fun r hr => haligns r (List.Mem.tail _ hr)) h2'
      refine ⟨?_, ?_, ?_⟩
      · rw [allocRun, List.chain'_cons']
        refine ⟨?_, c1⟩
        intro y hy
        have hge := allocRun_ge _ _ h2' y (List.mem_of_mem_head? hy)
        rw [hnext] at hge
        rw [haddr]
        omega
      · rw [allocRun]
        exact List.Forall₂.cons (by rw [haddr]; exact nextMul_emod _ _ h1') c2
      · rw [allocRun, List.zip_cons_cons, List.chain'_cons']
        refine ⟨?_, c3⟩
        intro y hy
        have hy1 : y.1 ∈ allocRun (raw_alloc_next start size align) rest :=
          (List.of_mem_zip (List.mem_of_mem_head? hy)).1
        have hge := allocRun_ge _ _ h2' y.1 hy1
        rw [hnext] at hge
        show raw_alloc_addr start size align + size ≤ y.1
        rw [haddr]
        omega

/-- C8 (amended): for any sequence of `raw_alloc(size_i, align_i)` with
`align_i ≥ 1` in which no `u64` overflow occurs, the returned addresses
are non-decreasing, each address is a multiple of its requested
alignment, each address is at least the end (address + size) of the
previous allocation, and each allocation advances the cursor to
`addr + size`. -/
theorem alloc_sequence_monotone_aligned (start : Nat) (reqs : List (Nat × Nat))
    (haligns : ∀ r ∈ reqs, 1 ≤ r.2) (hno : allocNoOverflow start reqs) :
    List.Chain' (· ≤ ·) (allocRun start reqs) ∧
    List.Forall₂ (fun a r => a % r.2 = 0) (allocRun start reqs) reqs ∧
    List.Chain' (fun (p q : Nat × (Nat × Nat)) => p.1 + p.2.1 ≤ q.1)
      ((allocRun start reqs).zip reqs) ∧
    (∀ cursor size align, nextMul cursor align + size < 2 ^ 64 →
      raw_alloc_next cursor size align = raw_alloc_addr cursor size align + size) := by
  obtain ⟨c1, c2, c3⟩ := allocRun_spec start reqs haligns hno
  exact ⟨c1, c2, c3, raw_alloc_next_eq⟩

/-- C8 witness: a concrete allocation sequence satisfying the
hypotheses, with the conclusions evaluated. -/
theorem alloc_sequence_monotone_aligned_witness :
    List.Chain' (· ≤ ·) (allocRun 0x1000 [(8, 4), (2, 16)]) ∧
    List.Forall₂ (fun a r => a % r.2 = 0) (allocRun 0x1000 [(8, 4), (2, 16)])
      [(8, 4), (2, 16)] := by
  have h := alloc_sequence_monotone_aligned 0x1000 [(8, 4), (2, 16)]
    (by decide) (by decide)
  exact ⟨h.1, h.2.1⟩

/-- C8 counterexample: starting the allocator at cursor `2^64 - 1`
(release-mode `u64` wrap-around), the sequence `alloc(1,1); alloc(0,1)`
returns the strictly decreasing addresses `[2^64 - 1, 0]`, refuting the
claim that returned addresses are always non-decreasing. -/
theorem alloc_sequence_wrap_counterexample :
    allocRun (2 ^ 64 - 1) [(1, 1), (0, 1)] = [2 ^ 64 - 1, 0] ∧
    ¬ List.Chain' (· ≤ ·) (allocRun (2 ^ 64 - 1) [(1, 1), (0, 1)]) := by
  constructor
  · decide
  · intro hc
    rw [(by decide : allocRun (2 ^ 64 - 1) [(1, 1), (0, 1)] = [2 ^ 64 - 1, 0])] at hc
    have h := (List.chain'_cons.mp hc).1
    omega

/-- C1 (amended): `copy_to_guest(bytes, addr)` succeeds if and only if
`addr + bytes.len() ≤ memory_size`; a failure is the `OutOfGuestMemory`
error (`none` here), and a successful copy changes guest memory only
inside `[addr, addr + bytes.len())`, a range entirely below
`memory_size`, writing exactly the given bytes there. -/
theorem copy_to_guest_bounds :
    (∀ (bytes : ByteStr) (memory : Mem) (addr : Nat),
      (copy_to_guest bytes memory addr).isSome = true ↔
        addr + bytes.len ≤ memory.len) ∧
    (∀ (bytes : ByteStr) (memory : Mem) (addr : Nat) (m' : Mem),
      copy_to_guest bytes memory addr = some m' →
        m'.len = memory.len ∧
        (∀ i, i < addr ∨ addr + bytes.len ≤ i → m'.byte i = memory.byte i) ∧
        (∀ j, j < bytes.len → m'.byte (addr + j) = bytes.byte j) ∧
        (∀ i, m'.byte i ≠ memory.byte i →
          addr ≤ i ∧ i < addr + bytes.len ∧ i < memory.len)) := by
  constructor
  · intro bytes memory addr
    unfold copy_to_guest
    constructor
    · intro h
      by_cases h1 : addr ≤ memory.len
      · simp only [h1, if_true] at h
        by_cases h2 : bytes.len ≤ memory.len - addr
        · omega
        · simp [h2] at h
      · simp [h1] at h
    · intro h
      have h1 : addr ≤ memory.len := by omega
      have h2 : bytes.len ≤ memory.len - addr := by omega
      simp [h1, h2]
  · intro bytes memory addr m' h
    unfold copy_to_guest at h
    by_cases h1 : addr ≤ memory.len
    · by_cases h2 : bytes.len ≤ memory.len - addr
      · simp only [h1, h2, if_true] at h
        obtain rfl : m' = _ := (Option.some.injEq _ _ ▸ h).symm
        refine ⟨rfl, ?_, ?_, ?_⟩
        · intro i hi
          simp only
          rw [if_neg (by omega)]
        · intro j hj
          simp only
          rw [if_pos (by omega)]
          congr 1
          omega
        · intro i hi
          simp only at hi
          by_cases hin : addr ≤ i ∧ i < addr + bytes.len
          · exact ⟨hin.1, hin.2, by omega⟩
          · rw [if_neg hin] at hi
            exact absurd rfl hi
      · simp [h1, h2] at h
    · simp [h1] at h

/-- C1 amended witness: a concrete in-bounds copy, with the frame and
content facts evaluated through the theorem. -/
theorem copy_to_guest_bounds_witness :
    ∃ m', copy_to_guest (bytesOfList [9, 7]) ⟨4, fun _ => 0⟩ 1 = some m' ∧
      m'.byte 1 = 9 ∧ m'.byte 3 = 0 ∧
      ((copy_to_guest (bytesOfList [9, 7]) ⟨4, fun _ => 0⟩ 5).isSome = true ↔ False) := by
  refine ⟨_, rfl, ?_, ?_, ?_⟩
  · exact (copy_to_guest_bounds.2 (bytesOfList [9, 7]) ⟨4, fun _ => 0⟩ 1 _ rfl).2.2.1
      0 (by decide)
  · exact (copy_to_guest_bounds.2 (bytesOfList [9, 7]) ⟨4, fun _ => 0⟩ 1 _ rfl).2.1
      3 (by decide)
  · rw [copy_to_guest_bounds.1]
    simp [bytesOfList]

/-! ## Port-I/O bus (src/microcosm/src/device.rs) -/

/-- `PortRange` (device.rs:126-130): `base` and `len` are `u16`.  Sums
below take `% 2^16` where the source's `u16` addition wraps in release
builds. -/
structure PortRange where
  base : Nat
  len : Nat
  deriving DecidableEq, Repr

/-- `PortRange::contains` (device.rs:165-167):
`base <= port && port < base + len` with wrapping `u16` addition. -/
def PortRange.containsP (r : PortRange) (port : Nat) : Bool :=
  decide (r.base ≤ port) && decide (port < (r.base + r.len) % 2 ^ 16)

/-- `PortRange::overlaps` (device.rs:169-171):
`base < other.base + other.len && other.base < base + len` with
wrapping `u16` addition. -/
def PortRange.overlaps (r other : PortRange) : Bool :=
  decide (r.base < (other.base + other.len) % 2 ^ 16) &&
    decide (other.base < (r.base + r.len) % 2 ^ 16)

/-- `From<Range<u16>> for PortRange` (device.rs:132-139):
`len = end - start` with wrapping `u16` subtraction. -/
def PortRange.fromExclusive (start stop : Nat) : PortRange :=
  ⟨start, (stop + 2 ^ 16 - start % 2 ^ 16) % 2 ^ 16⟩

/-- `From<RangeInclusive<u16>> for PortRange` (device.rs:141-148):
`len = end - start + 1`, each `u16` operation wrapping. -/
def PortRange.fromInclusive (lo hi : Nat) : PortRange :=
  ⟨lo, ((hi + 2 ^ 16 - lo % 2 ^ 16) % 2 ^ 16 + 1) % 2 ^ 16⟩

/-- `PortIoHub::add_device` (device.rs:90-99): reject the new device if
its range overlaps any already-registered device's range, else push it
at the end of the device list. -/
def add_device {δ : Type} (rangeOf : δ → PortRange) (devices : List δ) (d : δ) :
    Except Err (List δ) :=
  if devices.any fun e => (rangeOf d).overlaps (rangeOf e) then
    .error .deviceRangeOverlap
  else
    .ok (devices ++ [d])

/-- A sequence of `add_device` calls. -/
def add_devices {δ : Type} (rangeOf : δ → PortRange) :
    List δ → List δ → Except Err (List δ)
  | devices, [] => .ok devices
  | devices, d :: rest =>
      match add_device rangeOf devices d with
      | .error e => .error e
      | .ok devices' => add_devices rangeOf devices' rest

/-- The device the hub's linear scan selects for a port: the first
device whose range contains it (device.rs:107-123). -/
def hub_dispatch {δ : Type} (rangeOf : δ → PortRange) :
    List δ → Nat → Option δ
  | [], _ => none
  | d :: rest, port =>
      if (rangeOf d).containsP port then some d
      else hub_dispatch rangeOf rest port

/-- `PortIoDevice::read for PortIoHub` (device.rs:107-114): route to the
first device containing the port; if none matches, return `Ok` leaving
the data buffer unchanged. -/
def hub_read {δ : Type} (rangeOf : δ → PortRange)
    (readF : δ → Nat → List Nat → Except Err (List Nat)) :
    List δ → Nat → List Nat → Except Err (List Nat)
  | [], _, data => .ok data
  | d :: rest, port, data =>
      if (rangeOf d).containsP port then readF d port data
      else hub_read rangeOf readF rest port data

/-- `PortIoDevice::write for PortIoHub` (device.rs:116-123): route to
the first device containing the port; if none matches, return `Ok`
discarding the write. -/
def hub_write {δ : Type} (rangeOf : δ → PortRange)
    (writeF : δ → Nat → List Nat → Except Err Unit) :
    List δ → Nat → List Nat → Except Err Unit
  | [], _, _ => .ok ()
  | d :: rest, port, data =>
      if (rangeOf d).containsP port then writeF d port data
      else hub_write rangeOf writeF rest port data

instance exceptDecEq {ε α : Type} [DecidableEq ε] [DecidableEq α] :
    DecidableEq (Except ε α)
  | .error e, .error f =>
      if h : e = f then isTrue (by rw [h])
      else isFalse (by intro hc; cases hc; exact h rfl)
  | .error _, .ok _ => isFalse (by intro h; cases h)
  | .ok _, .error _ => isFalse (by intro h; cases h)
  | .ok a, .ok b =>
      if h : a = b then isTrue (by rw [h])
      else isFalse (by intro hc; cases hc; exact h rfl)

lemma containsP_spec {r : PortRange} {p : Nat} (h : r.containsP p = true) :
    r.base ≤ p ∧ p < (r.base + r.len) % 2 ^ 16 := by
  simpa [PortRange.containsP] using h

lemma overlaps_comm (r s : PortRange) : r.overlaps s = s.overlaps r := by
  simp [PortRange.overlaps, Bool.and_comm]

lemma overlaps_of_both_contain {r s : PortRange} {p : Nat}
    (hr : r.containsP p = true) (hs : s.containsP p = true) :
    r.overlaps s = true := by
  obtain ⟨hr1, hr2⟩ := containsP_spec hr
  obtain ⟨hs1, hs2⟩ := containsP_spec hs
  simp only [PortRange.overlaps, Bool.and_eq_true, decide_eq_true_eq]
  omega

/-- The non-overlap relation maintained across `add_device` calls. -/
def NonOverlapping {δ : Type} (rangeOf : δ → PortRange) (devices : List δ) : Prop :=
  List.Pairwise (fun a b => (rangeOf a).overlaps (rangeOf b) = false) devices

lemma add_device_nonOverlapping {δ : Type} {rangeOf : δ → PortRange}
    {devices : List δ} {d : δ} {devices' : List δ}
    (hinv : NonOverlapping rangeOf devices)
    (h : add_device rangeOf devices d = .ok devices') :
    NonOverlapping rangeOf devices' := by
  unfold add_device at h
  split at h
  · cases h
  · next hany =>
    cases h
    rw [List.any_eq_true] at hany
    push_neg at hany
    refine List.pairwise_append.mpr ⟨hinv, List.pairwise_singleton _ _, ?_⟩
    intro a ha b hb
    rw [List.mem_singleton] at hb
    subst hb
    have := hany a ha
    rw [overlaps_comm]
    simpa using this

lemma add_devices_nonOverlapping {δ : Type} {rangeOf : δ → PortRange} :
    ∀ {ds devices hub : List δ}, NonOverlapping rangeOf devices →
      add_devices rangeOf devices ds = .ok hub → NonOverlapping rangeOf hub := by
  intro ds
  induction ds with
  | nil =>
      intro devices hub hinv h
      cases h
      exact hinv
  | cons d rest ih =>
      intro devices hub hinv h
      unfold add_devices at h
      revert h
      cases hadd : add_device rangeOf devices d with
      | error e => intro h; cases h
      | ok devices' =>
          intro h
          exact ih (add_device_nonOverlapping hinv hadd) h

lemma countP_contains_le_one {δ : Type} {rangeOf : δ → PortRange}
    {devices : List δ} (hinv : NonOverlapping rangeOf devices) (p : Nat) :
    (devices.countP fun d => (rangeOf d).containsP p) ≤ 1 := by
  induction devices with
  | nil => simp
  | cons d rest ih =>
      rw [List.countP_cons]
      rcases List.pairwise_cons.mp hinv with ⟨hd, hrest⟩
      by_cases hc : (rangeOf d).containsP p = true
      · have hzero : (rest.countP fun e => (rangeOf e).containsP p) = 0 := by
          rw [List.countP_eq_zero]
          intro e he
          intro hce
          have := overlaps_of_both_contain hc hce
          rw [hd e he] at this
          cases this
        simp [hzero, hc]
      · have := ih hrest
        simp only [Bool.not_eq_true] at hc
        simp [hc]
        omega

/-- C4: a device whose range overlaps a previously accepted range is
rejected with `DeviceRangeOverlap` (the bus is returned unchanged only
on success, so a rejected call leaves it as it was); after every
successful sequence of `add_device` calls starting from the empty bus,
at most one registered device's range contains any given port; and an
access to a port contained in no device's range succeeds while leaving
the read buffer unchanged and discarding the write (no device is
dispatched). -/
theorem port_io_hub_contract :
    (∀ (δ : Type) (rangeOf : δ → PortRange) (devices : List δ) (d : δ),
      (∃ e ∈ devices, (rangeOf d).overlaps (rangeOf e) = true) →
      add_device rangeOf devices d = .error .deviceRangeOverlap) ∧
    (∀ (δ : Type) (rangeOf : δ → PortRange) (ds hub : List δ),
      add_devices rangeOf [] ds = .ok hub →
      ∀ p, (hub.countP fun d => (rangeOf d).containsP p) ≤ 1) ∧
    (∀ (δ : Type) (rangeOf : δ → PortRange)
      (readF : δ → Nat → List Nat → Except Err (List Nat))
      (writeF : δ → Nat → List Nat → Except Err Unit)
      (devices : List δ) (p : Nat) (data : List Nat),
      (∀ d ∈ devices, (rangeOf d).containsP p = false) →
      hub_dispatch rangeOf devices p = none ∧
      hub_read rangeOf readF devices p data = .ok data ∧
      hub_write rangeOf writeF devices p data = .ok ()) := by
  refine ⟨?_, ?_, ?_⟩
  · intro δ rangeOf devices d hov
    unfold add_device
    rw [if_pos (List.any_eq_true.mpr (by simpa using hov))]
  · intro δ rangeOf ds hub h p
    exact countP_contains_le_one
      (add_devices_nonOverlapping (List.Pairwise.nil) h) p
  · intro δ rangeOf readF writeF devices p data hnone
    induction devices with
    | nil => exact ⟨rfl, rfl, rfl⟩
    | cons d rest ih =>
        have hd := hnone d (List.Mem.head _)
        obtain ⟨i1, i2, i3⟩ := ih fun e he => hnone e (List.Mem.tail _ he)
        refine ⟨?_, ?_, ?_⟩
        · rw [hub_dispatch, if_neg (by simp [hd]), i1]
        · rw [hub_read, if_neg (by simp [hd]), i2]
        · rw [hub_write, if_neg (by simp [hd]), i3]

/-- C4 witness: a concrete bus (serial at `[0x3f8,0x400)`, i8042 at
`[0x60,0x64]`) built successfully; overlap rejection, uniqueness of the
containing device, and the silent ignore of an unclaimed port, all via
the contract theorem. -/
theorem port_io_hub_contract_witness :
    add_device id [PortRange.fromExclusive 0x3f8 0x400]
        (PortRange.fromExclusive 0x3fc 0x404) = .error .deviceRangeOverlap ∧
    (∀ p, ([PortRange.fromExclusive 0x3f8 0x400,
        PortRange.fromInclusive 0x60 0x64].countP
        fun r => (id r).containsP p) ≤ 1) ∧
    hub_read id (fun _ _ d => .ok (0xff :: d.tail))
      [PortRange.fromExclusive 0x3f8 0x400] 0x70 [0] = .ok [0] := by
  refine ⟨?_, ?_, ?_⟩
  · exact port_io_hub_contract.1 PortRange id _ _ ⟨_, List.Mem.head _, by decide⟩
  · exact port_io_hub_contract.2.1 PortRange id
      [PortRange.fromExclusive 0x3f8 0x400, PortRange.fromInclusive 0x60 0x64]
      _ (by decide)
  · exact (port_io_hub_contract.2.2 PortRange id _ (fun _ _ _ => .ok ()) _ 0x70 [0]
      (by decide)).2.1

/-- C10: a `PortRange` whose `base + len` reaches past the 16-bit port
space has a wrapped upper bound, so `contains` is false at every port
and the device, though accepted by `add_device` (its `overlaps` check
can miss ranges it meets), is unreachable by dispatch; for ranges with
`base + len < 2^16` the containment test agrees with the real interval
`[base, base + len)`. -/
theorem port_range_wraparound :
    (∀ r : PortRange, r.base < 2 ^ 16 → r.len < 2 ^ 16 →
      2 ^ 16 ≤ r.base + r.len → ∀ p, r.containsP p = false) ∧
    ((PortRange.mk 0xfff8 8).overlaps ⟨0xfff8, 4⟩ = false ∧
      add_device id [PortRange.mk 0xfff8 4] ⟨0xfff8, 8⟩ =
        .ok [⟨0xfff8, 4⟩, ⟨0xfff8, 8⟩] ∧
      (PortRange.mk 0xfff8 4).containsP 0xfff8 = true ∧
      ∀ p, (PortRange.mk 0xfff8 8).containsP p = false) ∧
    (∀ (r : PortRange) (p : Nat), r.base + r.len < 2 ^ 16 →
      (r.containsP p = true ↔ r.base ≤ p ∧ p < r.base + r.len)) := by
  have hwrap : ∀ r : PortRange, r.base < 2 ^ 16 → r.len < 2 ^ 16 →
      2 ^ 16 ≤ r.base + r.len → ∀ p, r.containsP p = false := by
    intro r hb hl hsum p
    rw [Bool.eq_false_iff]
    intro hc
    obtain ⟨h1, h2⟩ := containsP_spec hc
    omega
  refine ⟨hwrap, ⟨by decide, by decide, by decide,
    fun p => hwrap ⟨0xfff8, 8⟩ (by decide) (by decide) (by decide) p⟩, ?_⟩
  · intro r p hsum
    simp only [PortRange.containsP, Bool.and_eq_true, decide_eq_true_eq]
    omega

/-- C10 witness: the wrapped range `base=0xfff8, len=8` contains no
port (evaluated at `0xfff8`), and a well-formed range agrees with its
interval, via the theorem. -/
theorem port_range_wraparound_witness :
    (PortRange.mk 0xfff8 8).containsP 0xfff8 = false ∧
    ((PortRange.mk 0x3f8 8).containsP 0x3fb = true ↔
      0x3f8 ≤ 0x3fb ∧ 0x3fb < 0x3f8 + 8) := by
  exact ⟨port_range_wraparound.1 ⟨0xfff8, 8⟩ (by decide) (by decide) (by decide) 0xfff8,
    port_range_wraparound.2.2 ⟨0x3f8, 8⟩ 0x3fb (by decide)⟩

/-! ## 16550A UART (src/microcosm/src/device/serial.rs)

Register offsets and bit masks are the `sys::serial_reg` values
(the bindings themselves are absent from `src/`).  Modelled from the
spec: the UART register table of §4.5 pins offset 0 = RX/TX,
1 = IER/DLM, 2 = IIR/FCR, 3 = LCR, 4 = MCR, 5 = LSR, 6 = MSR, 7 = SCR,
and the named bits `IER_RDI=0x01`, `IER_THRI=0x02`, `IIR_NO_INT=0x01`,
`IIR_THRI=0x02`, `IIR_RDI=0x04`, `IIR_FIFO_ENABLED_16550A=0xc0`,
`FCR_CLEAR_RCVR=0x02`, `FCR_CLEAR_XMIT=0x04`, `LCR_DLAB=0x80`,
`MCR_LOOP=0x10`, `MCR_OUT2=0x08`, `LSR_DR=0x01`, `LSR_BI=0x10`,
`LSR_THRE=0x20`, `LSR_TEMT=0x40`, `MSR DCD|DSR|CTS=0xb0`
(the Linux `serial_reg.h` constants); the numeric masks are inlined
below. -/

/-- `Serial` device state (serial.rs:14-31), extended with the
observable effects the methods perform: `line` is the level last set on
the KVM IRQ line, `events` the ordered `Irq::set_level` transitions,
and `stdout` the bytes written to host stdout by `flush_tx`. -/
structure Serial where
  base_port : Nat
  irq_number : Nat
  irq_state : Nat
  dll : Nat
  dlm : Nat
  iir : Nat
  ier : Nat
  fcr : Nat
  lcr : Nat
  mcr : Nat
  lsr : Nat
  msr : Nat
  scr : Nat
  rx_buf : List Nat
  tx_buf : List Nat
  line : Bool
  events : List Bool
  stdout : List Nat
  deriving DecidableEq, Repr

/-- Initial UART state (serial.rs:42-59): `LSR = TEMT|THRE`,
`MSR = DCD|DSR|CTS`, `IIR = NO_INT`, `SCR = UART_MCR_OUT2` (a quirk of
the source), empty FIFOs, IRQ line deasserted. -/
def serialInit (base_port irq_number : Nat) : Serial where
  base_port := base_port
  irq_number := irq_number
  irq_state := 0
  dll := 0
  dlm := 0
  iir := 0x01
  ier := 0
  fcr := 0
  lcr := 0
  mcr := 0
  lsr := 0x60
  msr := 0xb0
  scr := 0x08
  rx_buf := []
  tx_buf := []
  line := false
  events := []
  stdout := []

/-- `Serial::new` (serial.rs:34-41): COM1..COM4 base ports and pinned
IRQ numbers; any other index panics (`none` here). -/
def serialNew (n : Nat) : Option Serial :=
  match n with
  | 0 => some (serialInit 0x3f8 4)
  | 1 => some (serialInit 0x2f8 3)
  | 2 => some (serialInit 0x3e8 4)
  | 3 => some (serialInit 0x2e8 3)
  | _ => none

/-- `Irq::set_level` as observed from the UART: record the transition
and the new line level. -/
def setLevel (s : Serial) (level : Bool) : Serial :=
  { s with line := level, events := s.events ++ [level] }

/-- `Serial::flush_tx` (serial.rs:70-79): set `TEMT|THRE`, write the TX
FIFO to host stdout in order, clear the TX FIFO. -/
def flush_tx (s : Serial) : Serial :=
  { s with lsr := s.lsr ||| 0x60, stdout := s.stdout ++ s.tx_buf, tx_buf := [] }

/-- The IIR value composed by `update_irq` (serial.rs:94-100):
`RDI(0x04)` when `IER.RDI ∧ LSR.DR`, plus `THRI(0x02)` when
`IER.THRI ∧ LSR.TEMT`. -/
def composedIIR (ier lsr : Nat) : Nat :=
  let iir := 0
  let iir := if ier &&& 0x01 ≠ 0 ∧ lsr &&& 0x01 ≠ 0 then iir ||| 0x04 else iir
  let iir := if ier &&& 0x02 ≠ 0 ∧ lsr &&& 0x40 ≠ 0 then iir ||| 0x02 else iir
  iir

/-- First half of `Serial::update_irq` (serial.rs:82-92): the
FCR-clear bits latched in **LCR** (a quirk the spec flags) drain the
RX/TX FIFOs. -/
def clearStep (s : Serial) : Serial :=
  let s :=
    if s.lcr &&& 0x02 ≠ 0 then
      { s with lcr := s.lcr &&& 0xfd, rx_buf := [], lsr := s.lsr &&& 0xfe }
    else s
  if s.lcr &&& 0x04 ≠ 0 then
    { s with lcr := s.lcr &&& 0xfb, tx_buf := [], lsr := s.lsr ||| 0x60 }
  else s

/-- Second half of `Serial::update_irq` (serial.rs:94-112): compose the
IIR flags, emit a line transition when the level changes (suppressed
via `irq_state` otherwise), store the new `irq_state`. -/
def irqStep (s : Serial) : Serial :=
  let iir := composedIIR s.ier s.lsr
  let s :=
    if iir ≠ 0 then
      let s := { s with iir := iir }
      if s.irq_state = 0 then setLevel s true else s
    else
      let s := { s with iir := 0x01 }
      if s.irq_state ≠ 0 then setLevel s false else s
  { s with irq_state := iir }

/-- Tail of `Serial::update_irq` (serial.rs:114-116): when `IER.THRI`
is clear, flush the TX FIFO to stdout. -/
def flushStep (s : Serial) : Serial :=
  if s.ier &&& 0x02 = 0 then flush_tx s else s

/-- `Serial::update_irq` (serial.rs:81-119). -/
def update_irq (s : Serial) : Serial :=
  flushStep (irqStep (clearStep s))

/-- `Serial::queue_rx` (serial.rs:62-68). -/
def queue_rx (s : Serial) (data : Nat) : Serial :=
  let s :=
    if s.mcr &&& 0x10 = 0 ∧ s.rx_buf.length < 64 then
      { s with rx_buf := s.rx_buf ++ [data], lsr := s.lsr ||| 0x01 }
    else s
  update_irq s

/-- `port - self.base_port` with wrapping `u16` subtraction. -/
def portOffset (s : Serial) (port : Nat) : Nat :=
  (port + 2 ^ 16 - s.base_port % 2 ^ 16) % 2 ^ 16

/-- The state mutation of `Serial::write` before the final
`update_irq` (serial.rs:158-186), one guard per source match arm. -/
def writeCore (s : Serial) (off d : Nat) : Serial :=
  if off = 0 ∧ s.lcr &&& 0x80 ≠ 0 then { s with dll := d }
  else if off = 0 ∧ s.mcr &&& 0x10 ≠ 0 then
    if s.rx_buf.length < 64 then
      { s with rx_buf := s.rx_buf ++ [d], lsr := s.lsr ||| 0x01 }
    else s
  else if off = 0 ∧ s.tx_buf.length < 64 then
    let s := { s with tx_buf := s.tx_buf ++ [d], lsr := s.lsr &&& 0xbf }
    let s := if s.tx_buf.length = 32 then { s with lsr := s.lsr &&& 0xdf } else s
    flush_tx s
  else if off = 0 then { s with lsr := s.lsr &&& 0x9f }
  else if off = 1 ∧ s.lcr &&& 0x80 ≠ 0 then { s with dlm := d }
  else if off = 1 then { s with ier := d &&& 0x0f }
  else if off = 2 then { s with fcr := d }
  else if off = 3 then { s with lcr := d }
  else if off = 4 then { s with mcr := d }
  else if off = 7 then { s with scr := d }
  else s

/-- `Serial::write` (serial.rs:158-189): empty data returns
immediately; otherwise mutate per the first byte and re-run
`update_irq`. -/
def serialWrite (s : Serial) (port : Nat) (data : List Nat) : Serial :=
  match data with
  | [] => s
  | d :: _ => update_irq (writeCore s (portOffset s port) d)

/-- The state mutation and produced byte of `Serial::read` before the
final `update_irq` (serial.rs:127-153); the second component is the
value stored into `data[0]` (`d0` when the arm leaves it untouched). -/
def readCore (s : Serial) (off d0 : Nat) : Serial × Nat :=
  if off = 0 ∧ s.lcr &&& 0x80 ≠ 0 then (s, s.dll)
  else if off = 0 ∧ s.rx_buf = [] then (s, d0)
  else if off = 0 ∧ s.lsr &&& 0x10 ≠ 0 then ({ s with lsr := s.lsr &&& 0xef }, 0)
  else if off = 0 then
    let v := s.rx_buf.headD 0
    let s := { s with rx_buf := s.rx_buf.tail }
    (if s.rx_buf = [] then { s with lsr := s.lsr &&& 0xfe } else s, v)
  else if off = 1 ∧ s.lcr &&& 0x80 ≠ 0 then (s, s.dlm)
  else if off = 1 then (s, s.ier)
  else if off = 2 then (s, s.iir ||| 0xc0)
  else if off = 3 then (s, s.lcr)
  else if off = 4 then (s, s.mcr)
  else if off = 5 then (s, s.lsr)
  else if off = 6 then (s, s.msr)
  else if off = 7 then (s, s.scr)
  else (s, d0)

/-- `Serial::read` (serial.rs:127-156): empty data returns immediately;
otherwise serve the register, store the byte into `data[0]`, and re-run
`update_irq`. -/
def serialRead (s : Serial) (port : Nat) (data : List Nat) : Serial × List Nat :=
  match data with
  | [] => (s, data)
  | d0 :: rest =>
      (update_irq (readCore s (portOffset s port) d0).1,
        (readCore s (portOffset s port) d0).2 :: rest)

/-- The spec's asserted-line condition:
`(IER.RDI ∧ LSR.DR) ∨ (IER.THRI ∧ LSR.TEMT)`. -/
def assertCond (s : Serial) : Prop :=
  (s.ier &&& 0x01 ≠ 0 ∧ s.lsr &&& 0x01 ≠ 0) ∨
    (s.ier &&& 0x02 ≠ 0 ∧ s.lsr &&& 0x40 ≠ 0)

/-- The UART IRQ invariant of the claim: the line level equals the
composed interrupt condition, and `irq_state` equals the composed IIR
flags (0 when no condition holds). -/
def StateOk (s : Serial) : Prop :=
  (s.line = true ↔ assertCond s) ∧ s.irq_state = composedIIR s.ier s.lsr

lemma composedIIR_ne_zero (ier lsr : Nat) :
    composedIIR ier lsr ≠ 0 ↔
      ((ier &&& 0x01 ≠ 0 ∧ lsr &&& 0x01 ≠ 0) ∨
        (ier &&& 0x02 ≠ 0 ∧ lsr &&& 0x40 ≠ 0)) := by
  unfold composedIIR
  dsimp only
  by_cases h1 : ier &&& 0x01 ≠ 0 ∧ lsr &&& 0x01 ≠ 0 <;>
    by_cases h2 : ier &&& 0x02 ≠ 0 ∧ lsr &&& 0x40 ≠ 0
  · rw [if_pos h1, if_pos h2]
    exact iff_of_true (by decide) (Or.inl h1)
  · rw [if_pos h1, if_neg h2]
    exact iff_of_true (by decide) (Or.inl h1)
  · rw [if_neg h1, if_pos h2]
    exact iff_of_true (by decide) (Or.inr h2)
  · rw [if_neg h1, if_neg h2]
    exact iff_of_false (by decide) (by tauto)

lemma lor_sixty_and_one (x : Nat) : (x ||| 0x60) &&& 1 = x &&& 1 := by
  rw [show (1 : Nat) = 2 ^ 0 from rfl, Nat.and_two_pow, Nat.and_two_pow,
    Nat.testBit_lor]
  rw [show Nat.testBit 0x60 0 = false from by decide]
  simp

lemma clearStep_fields (s : Serial) :
    (clearStep s).line = s.line ∧ (clearStep s).irq_state = s.irq_state ∧
    (clearStep s).events = s.events ∧ (clearStep s).ier = s.ier := by
  unfold clearStep
  dsimp only
  split_ifs <;> exact ⟨rfl, rfl, rfl, rfl⟩

lemma irqStep_spec (s : Serial) (hpre : s.line = true ↔ s.irq_state ≠ 0) :
    (irqStep s).irq_state = composedIIR s.ier s.lsr ∧
    ((irqStep s).line = true ↔ composedIIR s.ier s.lsr ≠ 0) ∧
    (irqStep s).events = s.events ++
      (if (irqStep s).line = s.line then [] else [(irqStep s).line]) ∧
    (irqStep s).ier = s.ier ∧ (irqStep s).lsr = s.lsr := by
  unfold irqStep setLevel
  dsimp only
  by_cases hiir : composedIIR s.ier s.lsr ≠ 0
  · rw [if_pos hiir]
    by_cases hst : s.irq_state = 0
    · rw [if_pos hst]
      have hline : s.line = false :=
        Bool.eq_false_iff.mpr fun hl => (hpre.mp hl) hst
      refine ⟨rfl, iff_of_true rfl hiir, ?_, rfl, rfl⟩
      rw [hline]
      simp
    · rw [if_neg hst]
      have hline : s.line = true := hpre.mpr hst
      exact ⟨rfl, iff_of_true hline hiir, by simp, rfl, rfl⟩
  · rw [if_neg hiir]
    rw [Classical.not_not] at hiir
    by_cases hst : s.irq_state ≠ 0
    · rw [if_pos hst]
      have hline : s.line = true := hpre.mpr hst
      refine ⟨rfl, iff_of_false (by simp) (by simp [hiir]), ?_, rfl, rfl⟩
      rw [hline]
      simp
    · rw [if_neg hst]
      have hline : s.line = false := by
        rw [Bool.eq_false_iff]
        intro hl
        exact hst (hpre.mp hl)
      refine ⟨rfl, iff_of_false (by rw [hline]; simp) (by simp [hiir]), by simp, rfl, rfl⟩

lemma flushStep_spec (s : Serial) :
    (flushStep s).line = s.line ∧ (flushStep s).irq_state = s.irq_state ∧
    (flushStep s).events = s.events ∧
    composedIIR (flushStep s).ier (flushStep s).lsr = composedIIR s.ier s.lsr := by
  unfold flushStep flush_tx
  by_cases h : s.ier &&& 0x02 = 0
  · rw [if_pos h]
    refine ⟨rfl, rfl, rfl, ?_⟩
    show composedIIR s.ier (s.lsr ||| 0x60) = composedIIR s.ier s.lsr
    unfold composedIIR
    dsimp only
    have hth : ∀ y : Nat, ¬(s.ier &&& 0x02 ≠ 0 ∧ y &&& 0x40 ≠ 0) := fun y hc => hc.1 h
    rw [if_neg (hth _), if_neg (hth _), lor_sixty_and_one]
  · rw [if_neg h]
    exact ⟨rfl, rfl, rfl, rfl⟩

lemma update_irq_spec (s : Serial) (hpre : s.line = true ↔ s.irq_state ≠ 0) :
    StateOk (update_irq s) ∧
    (update_irq s).events = s.events ++
      (if (update_irq s).line = s.line then [] else [(update_irq s).line]) := by
  obtain ⟨c_line, c_irq, c_ev, c_ier⟩ := clearStep_fields s
  obtain ⟨i_irq, i_line, i_ev, i_ier, i_lsr⟩ :=
    irqStep_spec (clearStep s) (by rw [c_line, c_irq]; exact hpre)
  obtain ⟨f_line, f_irq, f_ev, f_comp⟩ := flushStep_spec (irqStep (clearStep s))
  unfold update_irq
  refine ⟨⟨?_, ?_⟩, ?_⟩
  · rw [f_line, i_line]
    unfold assertCond
    rw [← composedIIR_ne_zero, f_comp, i_ier, i_lsr]
  · rw [f_irq, i_irq, f_comp, i_ier, i_lsr]
  · rw [f_ev, i_ev, c_ev, f_line, c_line]

lemma writeCore_fields (s : Serial) (off d : Nat) :
    (writeCore s off d).line = s.line ∧
    (writeCore s off d).irq_state = s.irq_state ∧
    (writeCore s off d).events = s.events := by
  unfold writeCore flush_tx
  by_cases h1 : off = 0 ∧ s.lcr &&& 0x80 ≠ 0
  · rw [if_pos h1]; exact ⟨rfl, rfl, rfl⟩
  rw [if_neg h1]
  by_cases h2 : off = 0 ∧ s.mcr &&& 0x10 ≠ 0
  · rw [if_pos h2]
    by_cases h2b : s.rx_buf.length < 64
    · rw [if_pos h2b]; exact ⟨rfl, rfl, rfl⟩
    · rw [if_neg h2b]; exact ⟨rfl, rfl, rfl⟩
  rw [if_neg h2]
  by_cases h3 : off = 0 ∧ s.tx_buf.length < 64
  · rw [if_pos h3]
    dsimp only
    by_cases h3b : (s.tx_buf ++ [d]).length = 32
    · rw [if_pos h3b]; exact ⟨rfl, rfl, rfl⟩
    · rw [if_neg h3b]; exact ⟨rfl, rfl, rfl⟩
  rw [if_neg h3]
  by_cases h4 : off = 0
  · rw [if_pos h4]; exact ⟨rfl, rfl, rfl⟩
  rw [if_neg h4]
  by_cases h5 : off = 1 ∧ s.lcr &&& 0x80 ≠ 0
  · rw [if_pos h5]; exact ⟨rfl, rfl, rfl⟩
  rw [if_neg h5]
  by_cases h6 : off = 1
  · rw [if_pos h6]; exact ⟨rfl, rfl, rfl⟩
  rw [if_neg h6]
  by_cases h7 : off = 2
  · rw [if_pos h7]; exact ⟨rfl, rfl, rfl⟩
  rw [if_neg h7]
  by_cases h8 : off = 3
  · rw [if_pos h8]; exact ⟨rfl, rfl, rfl⟩
  rw [if_neg h8]
  by_cases h9 : off = 4
  · rw [if_pos h9]; exact ⟨rfl, rfl, rfl⟩
  rw [if_neg h9]
  by_cases h10 : off = 7
  · rw [if_pos h10]; exact ⟨rfl, rfl, rfl⟩
  rw [if_neg h10]
  exact ⟨rfl, rfl, rfl⟩

lemma readCore_fields (s : Serial) (off d0 : Nat) :
    (readCore s off d0).1.line = s.line ∧
    (readCore s off d0).1.irq_state = s.irq_state ∧
    (readCore s off d0).1.events = s.events := by
  unfold readCore
  by_cases h1 : off = 0 ∧ s.lcr &&& 0x80 ≠ 0
  · rw [if_pos h1]; exact ⟨rfl, rfl, rfl⟩
  rw [if_neg h1]
  by_cases h2 : off = 0 ∧ s.rx_buf = []
  · rw [if_pos h2]; exact ⟨rfl, rfl, rfl⟩
  rw [if_neg h2]
  by_cases h3 : off = 0 ∧ s.lsr &&& 0x10 ≠ 0
  · rw [if_pos h3]; exact ⟨rfl, rfl, rfl⟩
  rw [if_neg h3]
  by_cases h4 : off = 0
  · rw [if_pos h4]
    dsimp only
    by_cases h4b : s.rx_buf.tail = []
    · rw [if_pos h4b]; exact ⟨rfl, rfl, rfl⟩
    · rw [if_neg h4b]; exact ⟨rfl, rfl, rfl⟩
  rw [if_neg h4]
  by_cases h5 : off = 1 ∧ s.lcr &&& 0x80 ≠ 0
  · rw [if_pos h5]; exact ⟨rfl, rfl, rfl⟩
  rw [if_neg h5]
  by_cases h6 : off = 1
  · rw [if_pos h6]; exact ⟨rfl, rfl, rfl⟩
  rw [if_neg h6]
  by_cases h7 : off = 2
  · rw [if_pos h7]; exact ⟨rfl, rfl, rfl⟩
  rw [if_neg h7]
  by_cases h8 : off = 3
  · rw [if_pos h8]; exact ⟨rfl, rfl, rfl⟩
  rw [if_neg h8]
  by_cases h9 : off = 4
  · rw [if_pos h9]; exact ⟨rfl, rfl, rfl⟩
  rw [if_neg h9]
  by_cases h10 : off = 5
  · rw [if_pos h10]; exact ⟨rfl, rfl, rfl⟩
  rw [if_neg h10]
  by_cases h11 : off = 6
  · rw [if_pos h11]; exact ⟨rfl, rfl, rfl⟩
  rw [if_neg h11]
  by_cases h12 : off = 7
  · rw [if_pos h12]; exact ⟨rfl, rfl, rfl⟩
  rw [if_neg h12]
  exact ⟨rfl, rfl, rfl⟩

lemma stateOk_line_iff {s : Serial} (h : StateOk s) :
    s.line = true ↔ s.irq_state ≠ 0 := by
  rw [h.2, composedIIR_ne_zero]
  exact h.1

/-- C3: from any state satisfying the UART IRQ invariant, every
register access (read or write) re-establishes it — the asserted line
equals `(IER.RDI ∧ LSR.DR) ∨ (IER.THRI ∧ LSR.TEMT)` and `irq_state`
equals the composed IIR flags (0 when no condition holds) — and the
access emits a line transition exactly when the line level changed
(never a redundant transition). -/
theorem uart_irq_invariants (s : Serial) (port : Nat) (data : List Nat)
    (h : StateOk s) :
    (StateOk (serialWrite s port data) ∧
      (serialWrite s port data).events = s.events ++
        (if (serialWrite s port data).line = s.line then []
          else [(serialWrite s port data).line])) ∧
    (StateOk (serialRead s port data).1 ∧
      (serialRead s port data).1.events = s.events ++
        (if (serialRead s port data).1.line = s.line then []
          else [(serialRead s port data).1.line])) := by
  have hpre := stateOk_line_iff h
  constructor
  · cases data with
    | nil => exact ⟨h, by simp [serialWrite]⟩
    | cons d rest =>
        obtain ⟨w_line, w_irq, w_ev⟩ := writeCore_fields s (portOffset s port) d
        obtain ⟨hok, hev⟩ := update_irq_spec (writeCore s (portOffset s port) d)
          (by rw [w_line, w_irq]; exact hpre)
        simp only [serialWrite]
        exact ⟨hok, by rw [hev, w_ev, w_line]⟩
  · cases data with
    | nil => exact ⟨h, by simp [serialRead]⟩
    | cons d0 rest =>
        obtain ⟨r_line, r_irq, r_ev⟩ := readCore_fields s (portOffset s port) d0
        obtain ⟨hok, hev⟩ := update_irq_spec (readCore s (portOffset s port) d0).1
          (by rw [r_line, r_irq]; exact hpre)
        simp only [serialRead]
        exact ⟨hok, by rw [hev, r_ev, r_line]⟩

/-- C3 witness: the invariant holds for the freshly initialized COM1
UART and is evaluated after a concrete IER write (which asserts the
line: THRI is enabled while TEMT is set). -/
theorem uart_irq_invariants_witness :
    (serialWrite (serialInit 0x3f8 4) 0x3f9 [0x02]).irq_state =
      composedIIR (serialWrite (serialInit 0x3f8 4) 0x3f9 [0x02]).ier
        (serialWrite (serialInit 0x3f8 4) 0x3f9 [0x02]).lsr ∧
    (serialWrite (serialInit 0x3f8 4) 0x3f9 [0x02]).events =
      (serialInit 0x3f8 4).events ++
        (if (serialWrite (serialInit 0x3f8 4) 0x3f9 [0x02]).line =
            (serialInit 0x3f8 4).line then []
          else [(serialWrite (serialInit 0x3f8 4) 0x3f9 [0x02]).line]) := by
  have h := uart_irq_invariants (serialInit 0x3f8 4) 0x3f9 [0x02]
    (by unfold StateOk assertCond; decide)
  exact ⟨h.1.1.2, h.1.2⟩

/-- The C5 scenario: from the initial COM1 state, the guest writes
`IER = 0x02` to base+1 and then `'H'`, `'i'`, `'\n'` one at a time to
base+0. -/
def c5run : Serial :=
  serialWrite
    (serialWrite
      (serialWrite
        (serialWrite (serialInit 0x3f8 4) 0x3f9 [0x02])
        0x3f8 [72])
      0x3f8 [105])
    0x3f8 [10]

/-- C5 counterexample: over the whole access sequence the UART emits a
single assert transition and no deassert — the claimed
"one assert followed by one deassert" (`[true, false]`) never happens,
because `IER.THRI ∧ LSR.TEMT` still holds after the FIFO drains. -/
theorem uart_bytestream_counterexample :
    c5run.events = [true] ∧ c5run.events ≠ [true, false] := by
  constructor
  · decide
  · decide

/-- C5 (amended): after `IER := 0x02` and writing `'H','i','\n'` to
base+0, host stdout has received exactly the bytes `"Hi\n"`, LSR has
`TEMT|THRE` set (and nothing else), the TX FIFO is drained, and exactly
one assert transition — with no subsequent deassert — was emitted on
the IRQ line, which remains asserted. -/
theorem uart_bytestream_scenario :
    c5run.stdout = [72, 105, 10] ∧ c5run.lsr = 0x60 ∧ c5run.tx_buf = [] ∧
    c5run.events = [true] ∧ c5run.line = true := by
  refine ⟨by decide, by decide, by decide, by decide, by decide⟩

/-! ## ACPI tables (src/microcosm/src/boot.rs `configure_acpi`) -/

/-- Little-endian bytes of a `u32`. -/
def u32le (n : Nat) : List Nat :=
  [n % 256, n / 2 ^ 8 % 256, n / 2 ^ 16 % 256, n / 2 ^ 24 % 256]

/-- Little-endian bytes of a `u64`. -/
def u64le (n : Nat) : List Nat :=
  u32le (n % 2 ^ 32) ++ u32le (n / 2 ^ 32)

/-- The `checksum!` macro (boot.rs:131-141): `(u8::MAX - sum).wrapping_add(1)`
over the wrapping `u8` sum of the bytes, i.e. `(-sum) mod 256`. -/
def checksum_u8 (l : List Nat) : Nat :=
  (256 - l.sum % 256) % 256

def RSDP_ADDR : Nat := 0xe0000

/-- `xsdt_addr` as produced by the allocator in `configure_acpi`
(boot.rs:143-149): RSDP placed at `RSDP_ADDR` (36 bytes, align 16),
then the XSDT (header + one `u64` pointer, align 1). -/
def acpi_xsdt_addr : Nat :=
  raw_alloc_addr (raw_alloc_next RSDP_ADDR 36 16) 44 1

/-- `madt_addr` (boot.rs:151-154): after the XSDT. -/
def acpi_madt_addr : Nat :=
  raw_alloc_addr (raw_alloc_next (raw_alloc_next RSDP_ADDR 36 16) 44 1) (56 + 8) 1

/-- Modelled from the spec: byte layout of `acpi_table_rsdp` (the
`sys::acpi` bindings are absent from `src/`): 8-byte signature
`"RSD PTR "`, checksum at offset 8, 6-byte OEM id, revision (2),
32-bit RSDT address, 32-bit `length` (36), 64-bit XSDT address,
extended checksum at offset 32, 3 reserved bytes;
`ACPI_RSDP_CHECKSUM_LENGTH = 20`.  Default-initialized fields are
zero. -/
def rsdpBytes (c e : Nat) : List Nat :=
  [0x52, 0x53, 0x44, 0x20, 0x50, 0x54, 0x52, 0x20] ++ [c] ++
    [0, 0, 0, 0, 0, 0] ++ [2] ++ u32le 0 ++ u32le 36 ++ u64le acpi_xsdt_addr ++
    [e] ++ [0, 0, 0]

/-- `xsdp.checksum` (boot.rs:163): over the first 20 bytes, with both
checksum fields still zero. -/
def rsdp_checksum : Nat := checksum_u8 ((rsdpBytes 0 0).take 20)

/-- `xsdp.extended_checksum` (boot.rs:164): over the whole struct after
the short checksum was stored. -/
def rsdp_extended_checksum : Nat := checksum_u8 (rsdpBytes rsdp_checksum 0)

/-- The RSDP bytes written to guest memory. -/
def rsdpFinal : List Nat := rsdpBytes rsdp_checksum rsdp_extended_checksum

/-- Modelled from the spec: byte layout of `acpi_table_header`
(`sys::acpi` absent from `src/`): 4-byte signature, 32-bit length,
revision, checksum at offset 9, 6-byte OEM id, 8-byte OEM table id,
32-bit OEM revision, 32-bit compiler id, 32-bit compiler revision
(36 bytes, defaulted fields zero). -/
def acpiHeaderBytes (sig : List Nat) (length revision c : Nat) : List Nat :=
  sig ++ u32le length ++ [revision] ++ [c] ++ List.replicate 6 0 ++
    List.replicate 8 0 ++ u32le 0 ++ u32le 0 ++ u32le 0

/-- XSDT contents (boot.rs:167-175): header (`"XSDT"`, length 44,
revision 1) followed by one 64-bit pointer to the MADT. -/
def xsdtBytes (c : Nat) : List Nat :=
  acpiHeaderBytes [0x58, 0x53, 0x44, 0x54] 44 1 c ++ u64le acpi_madt_addr

def xsdt_checksum : Nat := checksum_u8 (xsdtBytes 0)

def xsdtFinal : List Nat := xsdtBytes xsdt_checksum

/-- Modelled from the spec: `acpi_madt_io_apic` bytes (subtable type 1,
length 12, id 0, reserved, `IOAPIC_ADDR = 0xfec0_0000`,
`global_irq_base = 0`). -/
def ioApicBytes : List Nat :=
  [1, 12, 0, 0] ++ u32le 0xfec00000 ++ u32le 0

/-- Modelled from the spec: `acpi_madt_local_apic` bytes for CPU `i`
(subtable type 0, length 8, `processor_id = id = i` as `u8`,
`lapic_flags = ACPI_MADT_ENABLED = 1`). -/
def lapicBytes (i : Nat) : List Nat :=
  [0, 8, i % 256, i % 256] ++ u32le 1

/-- MADT body after the ACPI header (boot.rs:177-217):
`address = APIC_BASE = 0xfee0_0000`, `flags = 0`, the I/O APIC entry,
then one local-APIC entry per CPU. -/
def madtTail (n : Nat) : List Nat :=
  u32le 0xfee00000 ++ u32le 0 ++ ioApicBytes ++ (List.range n).flatMap lapicBytes

/-- MADT contents: header (`"APIC"`, declared length `56 + 8·n`,
revision 6) followed by the body. -/
def madtBytes (n c : Nat) : List Nat :=
  acpiHeaderBytes [0x41, 0x50, 0x49, 0x43] (56 + 8 * n) 6 c ++ madtTail n

/-- The MADT checksum as the source computes it (boot.rs:211):
`checksum!(madt_header.header, madt_io_apic, madt_local_apics)` sums
only the 36-byte **inner** ACPI header (with its checksum still zero)
plus the subtables — the `address` and `flags` fields of
`acpi_table_madt` (table bytes 36..44) are *not* covered. -/
def madt_checksum (n : Nat) : Nat :=
  checksum_u8 (acpiHeaderBytes [0x41, 0x50, 0x49, 0x43] (56 + 8 * n) 6 0 ++
    (ioApicBytes ++ (List.range n).flatMap lapicBytes))

def madtFinal (n : Nat) : List Nat := madtBytes n (madt_checksum n)

/-- `configure_acpi` (boot.rs:124-220) as a guest-memory effect: the
three tables are copied at their allocated addresses. -/
def configure_acpi (memory : Mem) (num_cpus : Nat) : Option Mem :=
  match copy_to_guest (bytesOfList rsdpFinal) memory RSDP_ADDR with
  | none => none
  | some m1 =>
      match copy_to_guest (bytesOfList xsdtFinal) m1 acpi_xsdt_addr with
      | none => none
      | some m2 => copy_to_guest (bytesOfList (madtFinal num_cpus)) m2 acpi_madt_addr

lemma sum_insert_checksum (pre post : List Nat) :
    (pre ++ checksum_u8 (pre ++ 0 :: post) :: post).sum % 256 = 0 := by
  simp only [checksum_u8, List.sum_append, List.sum_cons]
  omega

lemma acpiHeaderBytes_split (sig : List Nat) (len rev c : Nat) (tail : List Nat) :
    acpiHeaderBytes sig len rev c ++ tail =
      (sig ++ u32le len ++ [rev]) ++ c ::
        (List.replicate 6 0 ++ List.replicate 8 0 ++ u32le 0 ++ u32le 0 ++
          u32le 0 ++ tail) := by
  simp [acpiHeaderBytes, List.append_assoc]

lemma table_sum_zero (sig : List Nat) (len rev : Nat) (tail : List Nat) :
    (acpiHeaderBytes sig len rev
      (checksum_u8 (acpiHeaderBytes sig len rev 0 ++ tail)) ++ tail).sum % 256 = 0 := by
  rw [acpiHeaderBytes_split sig len rev 0 tail, acpiHeaderBytes_split]
  exact sum_insert_checksum _ _

lemma lapicBytes_length (i : Nat) : (lapicBytes i).length = 8 := rfl

lemma bind_lapic_length (n : Nat) :
    ((List.range n).flatMap lapicBytes).length = 8 * n := by
  induction n with
  | zero => rfl
  | succ k ih =>
      rw [List.range_succ]
      simp only [List.flatMap_append, List.length_append, ih, List.flatMap_cons,
        List.flatMap_nil, List.append_nil, lapicBytes_length]
      omega

lemma madt_written_sum (n : Nat) : (madtFinal n).sum % 256 = 0xde := by
  unfold madtFinal madtBytes madt_checksum madtTail
  rw [acpiHeaderBytes_split [0x41, 0x50, 0x49, 0x43] (56 + 8 * n) 6 0
    (ioApicBytes ++ (List.range n).flatMap lapicBytes)]
  rw [acpiHeaderBytes_split]
  simp only [checksum_u8, List.sum_append, List.sum_cons, List.sum_nil]
  have h3 : (u32le 0).sum = 0 := by decide
  have h4 : (u32le 0xfee00000).sum = 478 := by decide
  simp only [h3, h4]
  omega

/-- C6 (code bug): the RSDP (both its short 20-byte region and its full
36 declared bytes) and the XSDT sum to zero as claimed, but the MADT
does **not**: `boot.rs:211` computes the checksum over
`madt_header.header` plus the subtables, omitting the table's
`address = 0xfee0_0000` and `flags` bytes, so the MADT written by
`configure_acpi` always sums to `0xde` over its declared length —
never zero. -/
theorem acpi_checksums_madt_bug :
    rsdpFinal.sum % 256 = 0 ∧
    (rsdpFinal.take 20).sum % 256 = 0 ∧
    rsdpFinal.length = 36 ∧
    xsdtFinal.sum % 256 = 0 ∧
    xsdtFinal.length = 44 ∧
    (∀ num_cpus, (madtFinal num_cpus).sum % 256 = 0xde) ∧
    (∀ num_cpus, (madtFinal num_cpus).length = 56 + 8 * num_cpus) ∧
    (madtFinal 1).sum % 256 = 0xde := by
  refine ⟨by decide, by decide, by decide, by decide, by decide,
    madt_written_sum, ?_, by decide⟩
  intro num_cpus
  show (madtBytes num_cpus (madt_checksum num_cpus)).length = _
  simp only [madtBytes, acpiHeaderBytes, madtTail, ioApicBytes, u32le,
    List.length_append, List.length_cons, List.length_nil,
    List.length_replicate, bind_lapic_length]
  omega


/-! ## Kernel image loading (src/microcosm/src/load.rs)

ELF layout constants come from the absent `sys::elf` bindings.
Modelled from the spec: standard ELF — 64-byte `Elf64_Ehdr`
(`e_ident[0..4] = 0x7f 'E' 'L' 'F'`, class byte 4 with `ELFCLASS64 = 2`
/ `ELFCLASS32 = 1`, data byte 5 with `ELFDATA2LSB = 1`, `e_entry` at
24, `e_phoff` at 32, `e_phentsize` at 54, `e_phnum` at 56), 52-byte
`Elf32_Ehdr` (`e_entry` at 24, `e_phoff` at 28, `e_phentsize` at 42,
`e_phnum` at 44), 56-byte `Elf64_Phdr` (`p_type`/`p_offset`/`p_paddr`/
`p_filesz`/`p_memsz` at 0/8/24/32/40), 32-byte `Elf32_Phdr` (same
fields at 0/4/12/16/20), 12-byte `Elf64_Nhdr` (`n_namesz`, `n_descsz`,
`n_type`); `PT_LOAD = 1`, `PT_NOTE = 4`,
`XEN_ELFNOTE_PHYS32_ENTRY = 0x12`. -/

/-- Little-endian bytes of a `u16`. -/
def u16le (n : Nat) : List Nat := [n % 256, n / 256 % 256]

/-- Little-endian read of `n` bytes at `off` (parsers check lengths
before reading). -/
def readLE (b : ByteStr) (off : Nat) : Nat → Nat
  | 0 => 0
  | n + 1 => b.byte off + 256 * readLE b (off + 1) n

/-- The sub-slice `&b[off..off+len]`, used only after its bounds were
checked. -/
def byteSlice (b : ByteStr) (off len : Nat) : ByteStr :=
  ⟨len, fun i => b.byte (off + i)⟩

/-- The program-header fields `load.rs` uses (both ELF classes are
parsed into this shape). -/
structure Phdr where
  p_type : Nat
  p_offset : Nat
  p_paddr : Nat
  p_filesz : Nat
  p_memsz : Nat
  deriving DecidableEq, Repr

def parsePhdr64 (image : ByteStr) (base : Nat) : Phdr where
  p_type := readLE image base 4
  p_offset := readLE image (base + 8) 8
  p_paddr := readLE image (base + 24) 8
  p_filesz := readLE image (base + 32) 8
  p_memsz := readLE image (base + 40) 8

def parsePhdr32 (image : ByteStr) (base : Nat) : Phdr where
  p_type := readLE image base 4
  p_offset := readLE image (base + 4) 4
  p_paddr := readLE image (base + 12) 4
  p_filesz := readLE image (base + 16) 4
  p_memsz := readLE image (base + 20) 4

/-- `memory[start..start+n].fill(0)` after its bounds were checked. -/
def fillZero (memory : Mem) (start n : Nat) : Mem :=
  ⟨memory.len, fun i => if start ≤ i ∧ i < start + n then 0 else memory.byte i⟩

/-- Result of `load_elf32`/`load_elf64` (load.rs:154-157). -/
structure LoadedExecutable where
  entry_addr : Nat
  max_addr : Nat
  deriving DecidableEq, Repr

/-- The `PT_LOAD` loop shared by `load_elf32`/`load_elf64`
(load.rs:176-185, 210-219): copy `[p_offset, p_offset+p_filesz)` to
`p_paddr` (the slice of the *image* panics when out of range, the guest
copy fails with `OutOfGuestMemory`), zero
`[p_paddr+p_filesz, p_paddr+p_memsz)` by direct indexing (panics when
out of range), and accumulate `max(p_paddr + p_memsz)` with the
word-size wrap `wordMod` (`2^32` for ELF32, `2^64` for ELF64). -/
def elfLoadLoop (image : ByteStr) (wordMod : Nat) :
    List Phdr → Mem → Nat → Outcome Nat × Mem
  | [], memory, maxAddr => (.ok maxAddr, memory)
  | phdr :: rest, memory, maxAddr =>
      if phdr.p_type ≠ 1 then elfLoadLoop image wordMod rest memory maxAddr
      else if image.len < phdr.p_offset ∨
          image.len - phdr.p_offset < phdr.p_filesz then
        (.panicked, memory)
      else
        match copy_to_guest (byteSlice image phdr.p_offset phdr.p_filesz)
            memory phdr.p_paddr with
        | none => (.err .outOfGuestMemory, memory)
        | some m1 =>
            if m1.len < phdr.p_paddr ∨ phdr.p_memsz < phdr.p_filesz ∨
                m1.len - phdr.p_paddr < phdr.p_memsz then
              (.panicked, m1)
            else
              elfLoadLoop image wordMod rest
                (fillZero m1 (phdr.p_paddr + phdr.p_filesz)
                  (phdr.p_memsz - phdr.p_filesz))
                (max maxAddr ((phdr.p_paddr + phdr.p_memsz) % wordMod))

/-- `load_elf64` (load.rs:193-225): header length and `e_ident`/
`e_phentsize`/`e_phoff` validation, program-header table extraction
(slicing at `e_phoff` panics past the end; a short table is an error),
then the `PT_LOAD` loop. -/
def load_elf64 (memory : Mem) (image : ByteStr) : Outcome LoadedExecutable × Mem :=
  if image.len < 64 then (.err .invalidKernelImageFormat, memory)
  else if ¬(image.byte 0 = 0x7f ∧ image.byte 1 = 0x45 ∧
      image.byte 2 = 0x4c ∧ image.byte 3 = 0x46 ∧
      image.byte 4 = 2 ∧ image.byte 5 = 1 ∧
      readLE image 54 2 = 56 ∧ 64 ≤ readLE image 32 8) then
    (.err .invalidKernelImageFormat, memory)
  else
    let phoff := readLE image 32 8
    let phnum := readLE image 56 2
    if image.len < phoff then (.panicked, memory)
    else if image.len - phoff < 56 * phnum then
      (.err .invalidKernelImageFormat, memory)
    else
      match elfLoadLoop image (2 ^ 64)
          ((List.range phnum).map fun i => parsePhdr64 image (phoff + 56 * i))
          memory 0 with
      | (.ok maxAddr, m) => (.ok ⟨readLE image 24 8, maxAddr⟩, m)
      | (.err e, m) => (.err e, m)
      | (.panicked, m) => (.panicked, m)

/-- `load_elf32` (load.rs:159-191), analogous with class 32. -/
def load_elf32 (memory : Mem) (image : ByteStr) : Outcome LoadedExecutable × Mem :=
  if image.len < 52 then (.err .invalidKernelImageFormat, memory)
  else if ¬(image.byte 0 = 0x7f ∧ image.byte 1 = 0x45 ∧
      image.byte 2 = 0x4c ∧ image.byte 3 = 0x46 ∧
      image.byte 4 = 1 ∧ image.byte 5 = 1 ∧
      readLE image 42 2 = 32 ∧ 52 ≤ readLE image 28 4) then
    (.err .invalidKernelImageFormat, memory)
  else
    let phoff := readLE image 28 4
    let phnum := readLE image 44 2
    if image.len < phoff then (.panicked, memory)
    else if image.len - phoff < 32 * phnum then
      (.err .invalidKernelImageFormat, memory)
    else
      match elfLoadLoop image (2 ^ 32)
          ((List.range phnum).map fun i => parsePhdr32 image (phoff + 32 * i))
          memory 0 with
      | (.ok maxAddr, m) => (.ok ⟨readLE image 24 4, maxAddr⟩, m)
      | (.err e, m) => (.err e, m)
      | (.panicked, m) => (.panicked, m)

/-- `u32::next_multiple_of(4)` used for note name/descriptor padding. -/
def nm4 (x : Nat) : Nat := if x % 4 = 0 then x else x + (4 - x % 4)

/-- The inner note-scanning loop of `load_pvh` (load.rs:277-292) with a
structural fuel: while `offset < p_offset + p_filesz`, read an
`Elf64_Nhdr` (an out-of-bounds slice or a failed
`ref_from_prefix(..).unwrap()` panics), slice the name and descriptor
(panicking past the image), and stop at a `"Xen\0"` note of type
`XEN_ELFNOTE_PHYS32_ENTRY`, whose descriptor must hold a `u32`
(otherwise `InvalidKernelImageFormat`). -/
def scanNotesF (image : ByteStr) (bound : Nat) : Nat → Nat → Outcome (Option Nat)
  | 0, _ => .ok none
  | fuel + 1, offset =>
    if offset < bound then
      if image.len < offset then .panicked
      else if image.len - offset < 12 then .panicked
      else
        let namesz := readLE image offset 4
        let descsz := readLE image (offset + 4) 4
        let ntype := readLE image (offset + 8) 4
        let o1 := offset + 12
        if image.len < o1 ∨ image.len - o1 < namesz then .panicked
        else
          let o2 := o1 + nm4 namesz
          if image.len < o2 ∨ image.len - o2 < descsz then .panicked
          else
            if (namesz = 4 ∧ image.byte o1 = 0x58 ∧ image.byte (o1 + 1) = 0x65 ∧
                image.byte (o1 + 2) = 0x6e ∧ image.byte (o1 + 3) = 0) ∧
                ntype = 0x12 then
              if descsz < 4 then .err .invalidKernelImageFormat
              else .ok (some (readLE image o2 4))
            else scanNotesF image bound fuel (o2 + nm4 descsz)
    else .ok none

/-- The loop runs at most `⌈bound/12⌉` iterations because `offset`
grows by at least 12 (the note-header size) per iteration, so fuel
`bound + 1` never runs out; the fuel only makes the recursion
structural. -/
def scanNotes (image : ByteStr) (bound : Nat) (offset : Nat) : Outcome (Option Nat) :=
  scanNotesF image bound (bound + 1) offset

/-- The `'outer` loop of `load_pvh` over `PT_NOTE` program headers
(load.rs:272-293); the `while` bound `p_offset + p_filesz` is a
wrapping `u64`-to-`usize` sum. -/
def scanPhdrsForNote (image : ByteStr) : List Phdr → Outcome (Option Nat)
  | [] => .ok none
  | phdr :: rest =>
      if phdr.p_type ≠ 4 then scanPhdrsForNote image rest
      else
        match scanNotes image ((phdr.p_offset + phdr.p_filesz) % 2 ^ 64)
            phdr.p_offset with
        | .ok (some e) => .ok (some e)
        | .ok none => scanPhdrsForNote image rest
        | .err e => .err e
        | .panicked => .panicked

/-- `KernelParams` (lib.rs): the command line without its NUL, and —
modelled from the spec: file reads are external I/O — the *contents*
of the initrd file and of each module file (paired with the module's
NUL-terminated path bytes as built in load.rs:442-447). -/
structure KernelParams where
  cmdline : Option (List Nat)
  initrd : Option (List Nat)
  modules : List (List Nat × List Nat)

/-- `BootProtocol` (load.rs:33-46). -/
inductive BootProtocol where
  | linux32
  | linux64
  | pvh
  | multiboot
  deriving DecidableEq, Repr

/-- `Bootable` (boot.rs:18-23). -/
structure Bootable where
  protocol : BootProtocol
  entry_addr : Nat
  params_addr : Nat
  deriving DecidableEq, Repr

def EBDA_START : Nat := 0x9fc00
def HIGH_MEMORY_START : Nat := 0x100000

/-- Modelled from the spec: `hvm_memmap_table_entry` bytes
(`sys::start_info` absent): `addr` u64, `size` u64, `type` u32,
`reserved` u32; `XEN_HVM_MEMMAP_TYPE_RAM = 1`. -/
def memmapEntryBytes (addr size type_ : Nat) : List Nat :=
  u64le addr ++ u64le size ++ u32le type_ ++ u32le 0

/-- The two RAM entries built by `load_pvh` (load.rs:306-319); the
second entry's size is the wrapping `u64` difference
`memory.len() - HIGH_MEMORY_START`. -/
def pvhMemmapBytes (memLen : Nat) : List Nat :=
  memmapEntryBytes 0 EBDA_START 1 ++
    memmapEntryBytes HIGH_MEMORY_START
      ((memLen + 2 ^ 64 - HIGH_MEMORY_START) % 2 ^ 64) 1

/-- Modelled from the spec: `hvm_start_info` bytes (56, align 8;
`sys::start_info` absent): magic `0x336ec578`, version 1, flags,
nr_modules, modlist_paddr, cmdline_paddr, rsdp_paddr, memmap_paddr,
memmap_entries = 2, reserved; defaulted fields zero. -/
def startInfoBytes (cmdline_paddr memmap_paddr : Nat) : List Nat :=
  u32le 0x336ec578 ++ u32le 1 ++ u32le 0 ++ u32le 0 ++ u64le 0 ++
    u64le cmdline_paddr ++ u64le 0 ++ u64le memmap_paddr ++ u32le 2 ++ u32le 0

/-- Tail of `load_pvh` (load.rs:306-337): write the memory map and the
`hvm_start_info`. -/
def pvhFinish (memory : Mem) (entry params_addr cmdline_paddr cursor : Nat) :
    Outcome Bootable × Mem :=
  let memmap_paddr := raw_alloc_addr cursor 48 8
  match copy_to_guest (bytesOfList (pvhMemmapBytes memory.len)) memory memmap_paddr with
  | none => (.err .outOfGuestMemory, memory)
  | some m2 =>
      match copy_to_guest (bytesOfList (startInfoBytes cmdline_paddr memmap_paddr))
          m2 params_addr with
      | none => (.err .outOfGuestMemory, m2)
      | some m3 => (.ok ⟨.pvh, entry, params_addr⟩, m3)

/-- `load_pvh` (load.rs:262-338): re-parse the ELF64 headers (slicing
panics as in `load_elf64`), scan `PT_NOTE` segments for the PVH entry
note, then bump-allocate the `hvm_start_info` (align 8), optional
NUL-terminated cmdline, and two memory-map entries above `exe_end`. -/
def load_pvh (memory : Mem) (image : ByteStr) (exe_end : Nat)
    (params : KernelParams) : Outcome Bootable × Mem :=
  if image.len < 64 then (.err .invalidKernelImageFormat, memory)
  else
    let phoff := readLE image 32 8
    let phnum := readLE image 56 2
    if image.len < phoff then (.panicked, memory)
    else if image.len - phoff < 56 * phnum then
      (.err .invalidKernelImageFormat, memory)
    else
      match scanPhdrsForNote image
          ((List.range phnum).map fun i => parsePhdr64 image (phoff + 56 * i)) with
      | .panicked => (.panicked, memory)
      | .err e => (.err e, memory)
      | .ok none => (.err .invalidKernelImageFormat, memory)
      | .ok (some entry) =>
          let params_addr := raw_alloc_addr exe_end 56 8
          let c1 := raw_alloc_next exe_end 56 8
          match params.cmdline with
          | some cmd =>
              let cbytes := cmd ++ [0]
              let addr := raw_alloc_addr c1 cbytes.length 1
              let c2 := raw_alloc_next c1 cbytes.length 1
              match copy_to_guest (bytesOfList cbytes) memory addr with
              | none => (.err .outOfGuestMemory, memory)
              | some m1 => pvhFinish m1 entry params_addr addr c2
          | none => pvhFinish memory entry params_addr 0 c1

/-- The `setup_header` fields `load.rs` reads or writes. -/
structure SetupHeader where
  setup_sects : Nat
  boot_flag : Nat
  header : Nat
  version : Nat
  type_of_loader : Nat
  loadflags : Nat
  code32_start : Nat
  ramdisk_image : Nat
  ramdisk_size : Nat
  heap_end_ptr : Nat
  cmd_line_ptr : Nat
  initrd_addr_max : Nat
  kernel_alignment : Nat
  cmdline_size : Nat
  deriving DecidableEq, Repr

/-- Modelled from the spec: `boot_params::read_from_prefix` over the
absent `sys::bootparam` bindings — `size_of::<boot_params>() = 4096`
(packed), with the Linux boot-protocol offsets `setup_sects` 0x1f1,
`boot_flag` 0x1fe, `header` 0x202, `version` 0x206, `type_of_loader`
0x210, `loadflags` 0x211, `code32_start` 0x214, `ramdisk_image` 0x218,
`ramdisk_size` 0x21c, `heap_end_ptr` 0x224, `cmd_line_ptr` 0x228,
`initrd_addr_max` 0x22c, `kernel_alignment` 0x230, `cmdline_size`
0x238 (the spec anchors 0x1f1 in scenario 1).  Only the fields the
source reads or writes are tracked. -/
def parseSetupHeader (kernel : ByteStr) : Option SetupHeader :=
  if kernel.len < 4096 then none
  else some {
    setup_sects := kernel.byte 0x1f1
    boot_flag := readLE kernel 0x1fe 2
    header := readLE kernel 0x202 4
    version := readLE kernel 0x206 2
    type_of_loader := kernel.byte 0x210
    loadflags := kernel.byte 0x211
    code32_start := readLE kernel 0x214 4
    ramdisk_image := readLE kernel 0x218 4
    ramdisk_size := readLE kernel 0x21c 4
    heap_end_ptr := readLE kernel 0x224 2
    cmd_line_ptr := readLE kernel 0x228 4
    initrd_addr_max := readLE kernel 0x22c 4
    kernel_alignment := readLE kernel 0x230 4
    cmdline_size := readLE kernel 0x238 4 }

/-- `(setup_sects + 1) << 9` with a zero `setup_sects` treated as 4
(load.rs:244-247). -/
def setupSize (hdr : SetupHeader) : Nat :=
  ((if hdr.setup_sects = 0 then 4 else hdr.setup_sects) + 1) * 512

/-- `boot_e820_entry` bytes: `addr` u64, `size` u64, `type` u32;
`E820_RAM = 1`. -/
def e820EntryBytes (addr size type_ : Nat) : List Nat :=
  u64le addr ++ u64le size ++ u32le type_

/-- The serialized 4096-byte `boot_params` zero page: the tracked
`setup_header` fields at their offsets, `e820_entries` at 0x1e8 and the
20-byte E820 entries at 0x2d0, everything else zero
(`..Default::default()`). -/
def bootParamsBytes (hdr : SetupHeader) (e820 : List (Nat × Nat × Nat)) : ByteStr :=
  ⟨4096, fun i =>
    if i = 0x1e8 then e820.length % 256
    else if i = 0x1f1 then hdr.setup_sects % 256
    else if 0x1fe ≤ i ∧ i < 0x200 then (u16le hdr.boot_flag).getD (i - 0x1fe) 0
    else if 0x202 ≤ i ∧ i < 0x206 then (u32le hdr.header).getD (i - 0x202) 0
    else if 0x206 ≤ i ∧ i < 0x208 then (u16le hdr.version).getD (i - 0x206) 0
    else if i = 0x210 then hdr.type_of_loader % 256
    else if i = 0x211 then hdr.loadflags % 256
    else if 0x214 ≤ i ∧ i < 0x218 then (u32le hdr.code32_start).getD (i - 0x214) 0
    else if 0x218 ≤ i ∧ i < 0x21c then (u32le hdr.ramdisk_image).getD (i - 0x218) 0
    else if 0x21c ≤ i ∧ i < 0x220 then (u32le hdr.ramdisk_size).getD (i - 0x21c) 0
    else if 0x224 ≤ i ∧ i < 0x226 then (u16le hdr.heap_end_ptr).getD (i - 0x224) 0
    else if 0x228 ≤ i ∧ i < 0x22c then (u32le hdr.cmd_line_ptr).getD (i - 0x228) 0
    else if 0x22c ≤ i ∧ i < 0x230 then (u32le hdr.initrd_addr_max).getD (i - 0x22c) 0
    else if 0x230 ≤ i ∧ i < 0x234 then (u32le hdr.kernel_alignment).getD (i - 0x230) 0
    else if 0x238 ≤ i ∧ i < 0x23c then (u32le hdr.cmdline_size).getD (i - 0x238) 0
    else if 0x2d0 ≤ i ∧ i < 0x2d0 + 20 * e820.length then
      (e820.flatMap fun (a, s, t) => e820EntryBytes a s t).getD (i - 0x2d0) 0
    else 0⟩

/-- Last step of `write_linux_boot_params` (load.rs:379-399): build the
two-entry E820 table (the second size is the wrapping
`memory.len() - HIGH_MEMORY_START`), allocate the 4096-byte zero page
(align 1) and copy it. -/
def linuxZeroPageStep (memory : Mem) (hdr : SetupHeader) (cursor : Nat) :
    Outcome Nat × Mem :=
  let e820 := [(0, EBDA_START, 1),
    (HIGH_MEMORY_START, (memory.len + 2 ^ 64 - HIGH_MEMORY_START) % 2 ^ 64, 1)]
  let zero_page_addr := raw_alloc_addr cursor 4096 1
  match copy_to_guest (bootParamsBytes hdr e820) memory zero_page_addr with
  | none => (.err .outOfGuestMemory, memory)
  | some m1 => (.ok zero_page_addr, m1)

/-- Initrd step of `write_linux_boot_params` (load.rs:365-377): the
modelled file contents are allocated at alignment `0x10_0000`;
an address above `initrd_addr_max` fails `InitrdTooLarge`. -/
def linuxInitrdStep (memory : Mem) (hdr : SetupHeader) (cursor : Nat)
    (params : KernelParams) : Outcome Nat × Mem :=
  match params.initrd with
  | some bytes =>
      let addr := raw_alloc_addr cursor bytes.length 0x100000
      let c2 := raw_alloc_next cursor bytes.length 0x100000
      if hdr.initrd_addr_max < addr then (.err .initrdTooLarge, memory)
      else
        match copy_to_guest (bytesOfList bytes) memory addr with
        | none => (.err .outOfGuestMemory, memory)
        | some m1 =>
            linuxZeroPageStep m1
              { hdr with
                ramdisk_image := addr % 2 ^ 32
                ramdisk_size := bytes.length % 2 ^ 32 } c2
  | none => linuxZeroPageStep memory hdr cursor

/-- `write_linux_boot_params` (load.rs:340-400): force
`type_of_loader = 0xff`, set `CAN_USE_HEAP` (0x80) in `loadflags`,
`heap_end_ptr = 0xfe00`; place the NUL-terminated cmdline (length
checked against `cmdline_size`), then the initrd, then the zero page,
bump-allocating from `exe_end`. -/
def write_linux_boot_params (memory : Mem) (hdr : SetupHeader) (exe_end : Nat)
    (params : KernelParams) : Outcome Nat × Mem :=
  let hdr := { hdr with
    type_of_loader := 0xff
    loadflags := hdr.loadflags ||| 0x80
    heap_end_ptr := 0xfe00 }
  match params.cmdline with
  | some cmd =>
      if hdr.cmdline_size < cmd.length then (.err .cmdlineTooLong, memory)
      else
        let addr := raw_alloc_addr exe_end (cmd.length + 1) 1
        let c1 := raw_alloc_next exe_end (cmd.length + 1) 1
        match copy_to_guest (bytesOfList (cmd ++ [0])) memory addr with
        | none => (.err .outOfGuestMemory, memory)
        | some m1 =>
            linuxInitrdStep m1 { hdr with cmd_line_ptr := addr % 2 ^ 32 } c1 params
  | none => linuxInitrdStep memory hdr exe_end params

/-- `default_setup_header` (load.rs:402-412). -/
def default_setup_header : SetupHeader where
  setup_sects := 0
  boot_flag := 0xaa55
  header := 0x53726448
  version := 0
  type_of_loader := 0xff
  loadflags := 0
  code32_start := 0
  ramdisk_image := 0
  ramdisk_size := 0
  heap_end_ptr := 0
  cmd_line_ptr := 0
  initrd_addr_max := 0x37ffffff
  kernel_alignment := 0x1000000
  cmdline_size := 255

/-- `load_bz_image` (load.rs:229-260): parse the `boot_params` header
at offset 0, require `header == "HdrS"`, `version ≥ 0x206` and
`loadflags` bit 0; skip `(setup_sects+1)·512` bytes (the slice panics
past the end), copy the remainder to `HIGH_MEMORY_START`, write the
Linux boot params above it, and boot `Linux32` at `code32_start`. -/
def load_bz_image (memory : Mem) (kernel : ByteStr) (params : KernelParams) :
    Outcome Bootable × Mem :=
  match parseSetupHeader kernel with
  | none => (.err .invalidKernelImageFormat, memory)
  | some hdr =>
      if hdr.header ≠ 0x53726448 ∨ hdr.version < 0x206 ∨ hdr.loadflags &&& 1 = 0 then
        (.err .invalidKernelImageFormat, memory)
      else if kernel.len < setupSize hdr then (.panicked, memory)
      else
        match copy_to_guest
            (byteSlice kernel (setupSize hdr) (kernel.len - setupSize hdr))
            memory HIGH_MEMORY_START with
        | none => (.err .outOfGuestMemory, memory)
        | some m1 =>
            match write_linux_boot_params m1 hdr
                (HIGH_MEMORY_START + (kernel.len - setupSize hdr)) params with
            | (.ok pa, m2) => (.ok ⟨.linux32, hdr.code32_start, pa⟩, m2)
            | (.err e, m2) => (.err e, m2)
            | (.panicked, m2) => (.panicked, m2)

/-! Multiboot (load.rs:414-474).  Modelled from the spec: the absent
`sys::multiboot` bindings carry the Multiboot 1 constants
`MULTIBOOT_SEARCH = 8192`, `MULTIBOOT_HEADER_MAGIC = 0x1BADB002`,
`MULTIBOOT_BOOTLOADER_MAGIC = 0x2BADB002`, `MULTIBOOT_INFO_ALIGN = 4`,
`MULTIBOOT_MOD_ALIGN = 0x1000`, flags `CMDLINE = 0x4`, `MODS = 0x8`,
`MEM_MAP = 0x40`, `MULTIBOOT_MEMORY_AVAILABLE = 1`, and the standard
struct sizes (116-byte `multiboot_info_t` with `flags` at 0, `cmdline`
at 16, `mods_count` at 20, `mods_addr` at 24, `mmap_length` at 44,
`mmap_addr` at 48; 16-byte `multiboot_module_t`; 24-byte packed
`multiboot_memory_map_t`). -/

def mbInfoBytes (flags cmdline mods_count mods_addr mmap_length mmap_addr : Nat) :
    ByteStr :=
  ⟨116, fun i =>
    if i < 4 then (u32le flags).getD i 0
    else if 16 ≤ i ∧ i < 20 then (u32le cmdline).getD (i - 16) 0
    else if 20 ≤ i ∧ i < 24 then (u32le mods_count).getD (i - 20) 0
    else if 24 ≤ i ∧ i < 28 then (u32le mods_addr).getD (i - 24) 0
    else if 44 ≤ i ∧ i < 48 then (u32le mmap_length).getD (i - 44) 0
    else if 48 ≤ i ∧ i < 52 then (u32le mmap_addr).getD (i - 48) 0
    else 0⟩

def mbModuleBytes (mod_start mod_end cmdline : Nat) : List Nat :=
  u32le mod_start ++ u32le mod_end ++ u32le cmdline ++ u32le 0

def mbMmapBytes (memLen : Nat) : List Nat :=
  u32le 24 ++ u64le HIGH_MEMORY_START ++
    u64le ((memLen + 2 ^ 64 - HIGH_MEMORY_START) % 2 ^ 64) ++ u32le 1

/-- The module loop of `write_multiboot_info` (load.rs:440-463):
allocate module data (align 0x1000) and NUL-terminated path, write the
16-byte descriptor, the data, and the path; descriptors advance by 16
bytes. -/
def mbModulesLoop (memory : Mem) :
    List (List Nat × List Nat) → Nat → Nat → Outcome Unit × Mem
  | [], _, _ => (.ok (), memory)
  | (bytes, pathz) :: rest, entry_addr, cursor =>
      let mod_start := raw_alloc_addr cursor bytes.length 0x1000
      let c1 := raw_alloc_next cursor bytes.length 0x1000
      let mod_end := mod_start + bytes.length
      let cmdaddr := raw_alloc_addr c1 pathz.length 1
      let c2 := raw_alloc_next c1 pathz.length 1
      match copy_to_guest
          (bytesOfList (mbModuleBytes (mod_start % 2 ^ 32) (mod_end % 2 ^ 32)
            (cmdaddr % 2 ^ 32)))
          memory entry_addr with
      | none => (.err .outOfGuestMemory, memory)
      | some m1 =>
          match copy_to_guest (bytesOfList bytes) m1 mod_start with
          | none => (.err .outOfGuestMemory, m1)
          | some m2 =>
              match copy_to_guest (bytesOfList pathz) m2 cmdaddr with
              | none => (.err .outOfGuestMemory, m2)
              | some m3 => mbModulesLoop m3 rest (entry_addr + 16) c2

/-- Tail of `write_multiboot_info`: copy the info struct, run the
module loop, copy the one-entry memory map. -/
def mbFinish (memory : Mem) (flags cmdline info_addr mods_addr mmap_addr cursor : Nat)
    (params : KernelParams) : Outcome Nat × Mem :=
  match copy_to_guest
      (mbInfoBytes flags cmdline (params.modules.length % 2 ^ 32)
        (mods_addr % 2 ^ 32) 24 (mmap_addr % 2 ^ 32))
      memory info_addr with
  | none => (.err .outOfGuestMemory, memory)
  | some m1 =>
      match mbModulesLoop m1 params.modules mods_addr cursor with
      | (.ok _, m2) =>
          match copy_to_guest (bytesOfList (mbMmapBytes m2.len)) m2 mmap_addr with
          | none => (.err .outOfGuestMemory, m2)
          | some m3 => (.ok info_addr, m3)
      | (.err e, m2) => (.err e, m2)
      | (.panicked, m2) => (.panicked, m2)

/-- `write_multiboot_info` (load.rs:414-474): allocate the info struct
(align 4), module-descriptor array (align 4) and memory-map entry
(align 1) above `exe_end`, place the optional NUL-terminated cmdline
(setting the `CMDLINE` flag), then write everything;
`flags = MODS | MEM_MAP` always. -/
def write_multiboot_info (memory : Mem) (exe_end : Nat) (params : KernelParams) :
    Outcome Nat × Mem :=
  let info_addr := raw_alloc_addr exe_end 116 4
  let c1 := raw_alloc_next exe_end 116 4
  let mods_addr := raw_alloc_addr c1 (16 * params.modules.length) 4
  let c2 := raw_alloc_next c1 (16 * params.modules.length) 4
  let mmap_addr := raw_alloc_addr c2 24 1
  let c3 := raw_alloc_next c2 24 1
  match params.cmdline with
  | some cmd =>
      let cbytes := cmd ++ [0]
      let caddr := raw_alloc_addr c3 cbytes.length 1
      let c4 := raw_alloc_next c3 cbytes.length 1
      match copy_to_guest (bytesOfList cbytes) memory caddr with
      | none => (.err .outOfGuestMemory, memory)
      | some m1 =>
          mbFinish m1 (0x48 ||| 0x4) (caddr % 2 ^ 32) info_addr mods_addr mmap_addr
            c4 params
  | none => mbFinish memory 0x48 0 info_addr mods_addr mmap_addr c3 params

/-- The Multiboot magic scan of `Bootable::load` (load.rs:125-127):
any aligned `u32` among the first `min(len, 8192)` bytes equal to
`0x1BADB002`. -/
def multibootMagicFound (kernel : ByteStr) : Bool :=
  (List.range (min kernel.len 8192 / 4)).any fun i =>
    decide (readLE kernel (4 * i) 4 = 0x1BADB002)

/-- `Bootable::load` (load.rs:107-152): try ELF64 (with the PVH probe
and a Linux64 fallback whose boot-params failure propagates), then
ELF32 (Multiboot when the magic is found, Linux32 otherwise), then
bzImage; all strategy errors collapse to `InvalidKernelImageFormat`,
but panics abort the whole load. -/
def Bootable.load (memory : Mem) (kernel : ByteStr) (params : KernelParams) :
    Outcome Bootable × Mem :=
  match load_elf64 memory kernel with
  | (.panicked, m) => (.panicked, m)
  | (.ok exe, m1) =>
      match load_pvh m1 kernel exe.max_addr params with
      | (.panicked, m2) => (.panicked, m2)
      | (.ok b, m2) => (.ok b, m2)
      | (.err _, m2) =>
          match write_linux_boot_params m2 default_setup_header exe.max_addr params with
          | (.ok pa, m3) => (.ok ⟨.linux64, exe.entry_addr, pa⟩, m3)
          | (.err e, m3) => (.err e, m3)
          | (.panicked, m3) => (.panicked, m3)
  | (.err _, m1) =>
      match load_elf32 m1 kernel with
      | (.panicked, m2) => (.panicked, m2)
      | (.ok exe, m2) =>
          if multibootMagicFound kernel then
            match write_multiboot_info m2 exe.max_addr params with
            | (.ok pa, m3) => (.ok ⟨.multiboot, exe.entry_addr, pa⟩, m3)
            | (.err e, m3) => (.err e, m3)
            | (.panicked, m3) => (.panicked, m3)
          else
            match write_linux_boot_params m2 default_setup_header exe.max_addr params with
            | (.ok pa, m3) => (.ok ⟨.linux32, exe.entry_addr, pa⟩, m3)
            | (.err e, m3) => (.err e, m3)
            | (.panicked, m3) => (.panicked, m3)
      | (.err _, m2) =>
          match load_bz_image m2 kernel params with
          | (.ok b, m3) => (.ok b, m3)
          | (.err _, m3) => (.err .invalidKernelImageFormat, m3)
          | (.panicked, m3) => (.panicked, m3)

/-! ## Concrete images and the load-pipeline claims -/

/-- A minimal `Elf64_Ehdr` (little-endian, class 64, one program
header table at `phoff`). -/
def elf64EhdrBytes (entry phoff phnum : Nat) : List Nat :=
  [0x7f, 0x45, 0x4c, 0x46, 2, 1, 1, 0] ++ List.replicate 8 0 ++
    u16le 2 ++ u16le 0x3e ++ u32le 1 ++ u64le entry ++ u64le phoff ++ u64le 0 ++
    u32le 0 ++ u16le 64 ++ u16le 56 ++ u16le phnum ++ u16le 0 ++ u16le 0 ++ u16le 0

/-- An `Elf64_Phdr` with `p_vaddr = p_paddr` and `p_align = 0`. -/
def phdr64Bytes (type_ offset paddr filesz memsz : Nat) : List Nat :=
  u32le type_ ++ u32le 0 ++ u64le offset ++ u64le paddr ++ u64le paddr ++
    u64le filesz ++ u64le memsz ++ u64le 0

/-- A minimal `Elf32_Ehdr`. -/
def elf32EhdrBytes (entry phoff phnum : Nat) : List Nat :=
  [0x7f, 0x45, 0x4c, 0x46, 1, 1, 1, 0] ++ List.replicate 8 0 ++
    u16le 2 ++ u16le 3 ++ u32le 1 ++ u32le entry ++ u32le phoff ++ u32le 0 ++
    u32le 0 ++ u16le 52 ++ u16le 32 ++ u16le phnum ++ u16le 0 ++ u16le 0 ++ u16le 0

/-- An `Elf32_Phdr` with `p_vaddr = p_paddr`, `p_flags = p_align = 0`. -/
def phdr32Bytes (type_ offset paddr filesz memsz : Nat) : List Nat :=
  u32le type_ ++ u32le offset ++ u32le paddr ++ u32le paddr ++ u32le filesz ++
    u32le memsz ++ u32le 0 ++ u32le 0

/-- An ELF64 whose only `PT_LOAD` header has `p_offset = 0x10000`, far
past the 120-byte image. -/
def elf64OobOffsetKernel : ByteStr :=
  bytesOfList (elf64EhdrBytes 0x100000 64 1 ++ phdr64Bytes 1 0x10000 0 0x10 0x10)

/-- An ELF64 with a `PT_NOTE` header whose contents
(`p_offset = 120 = file size`, `p_filesz = 8`) lie past the image. -/
def elf64BadNoteKernel : ByteStr :=
  bytesOfList (elf64EhdrBytes 0x100000 64 1 ++ phdr64Bytes 4 120 0 8 8)

/-- An ELF64 whose only `PT_LOAD` has `p_filesz = 0` but
`p_memsz = 0x20`: loading zeroes guest memory past `memory_size`. -/
def elf64BssOverrunKernel : ByteStr :=
  bytesOfList (elf64EhdrBytes 0 64 1 ++ phdr64Bytes 1 0 0 0 0x20)

def emptyParams : KernelParams := ⟨none, none, []⟩

set_option maxRecDepth 4000 in
/-- C9: `Bootable::load` is not total: an ELF64 whose program header
points past the image makes the input slice panic, and an ELF64 whose
`PT_NOTE` contents extend past the image makes the PVH note scan panic
via an unchecked read — neither a `Bootable` nor an error is
returned. -/
theorem load_panics_on_malformed_elf64 :
    (Bootable.load ⟨0x1000, fun _ => 0⟩ elf64OobOffsetKernel emptyParams).1 =
      .panicked ∧
    (Bootable.load ⟨0x1000, fun _ => 0⟩ elf64BadNoteKernel emptyParams).1 =
      .panicked := by
  constructor
  · decide
  · decide

set_option maxRecDepth 4000 in
/-- C1 counterexample: loading `elf64BssOverrunKernel` into a 16-byte
guest memory panics — the BSS-zeroing write
`memory[p_paddr..][p_filesz..p_memsz].fill(0)` indexes guest memory
directly past `memory_size` instead of surfacing `OutOfGuestMemory`. -/
theorem load_guest_write_panic_counterexample :
    (Bootable.load ⟨16, fun _ => 0⟩ elf64BssOverrunKernel emptyParams).1 =
      .panicked := by
  decide

/-- C2: when the kernel is rejected by both ELF strategies and its
`boot_params` header has `header == "HdrS"`, `version ≥ 0x206` and
`loadflags` bit 0 set (and the copies fit), `Bootable::load` boots
`Linux32` at `code32_start` after copying the bytes from offset
`(setup_sects+1)·512` (a zero `setup_sects` counting as 4) to
`0x10_0000`; and whenever one of the three header conditions fails,
the bzImage strategy is rejected with `InvalidKernelImageFormat`. -/
theorem bz_image_load :
    (∀ (memory : Mem) (kernel : ByteStr) (params : KernelParams)
      (hdr : SetupHeader) (e1 e2 : Err) (m1 m2 m3 m4 : Mem) (pa : Nat),
      parseSetupHeader kernel = some hdr →
      hdr.header = 0x53726448 → 0x206 ≤ hdr.version → hdr.loadflags &&& 1 ≠ 0 →
      load_elf64 memory kernel = (.err e1, m1) →
      load_elf32 m1 kernel = (.err e2, m2) →
      setupSize hdr ≤ kernel.len →
      copy_to_guest (byteSlice kernel (setupSize hdr) (kernel.len - setupSize hdr))
        m2 HIGH_MEMORY_START = some m3 →
      write_linux_boot_params m3 hdr
        (HIGH_MEMORY_START + (kernel.len - setupSize hdr)) params =
        (.ok pa, m4) →
      (Bootable.load memory kernel params).1 =
        .ok ⟨.linux32, hdr.code32_start, pa⟩ ∧
      (∀ i, i < kernel.len - setupSize hdr →
        m3.byte (HIGH_MEMORY_START + i) = kernel.byte (setupSize hdr + i))) ∧
    (∀ (memory : Mem) (kernel : ByteStr) (params : KernelParams)
      (hdr : SetupHeader),
      parseSetupHeader kernel = some hdr →
      (hdr.header ≠ 0x53726448 ∨ hdr.version < 0x206 ∨ hdr.loadflags &&& 1 = 0) →
      (load_bz_image memory kernel params).1 = .err .invalidKernelImageFormat) := by
  constructor
  · intro memory kernel params hdr e1 e2 m1 m2 m3 m4 pa hparse hmagic hver hflags
      h64 h32 hss hcopy hwrite
    have hbz : load_bz_image m2 kernel params =
        (.ok ⟨.linux32, hdr.code32_start, pa⟩, m4) := by
      unfold load_bz_image
      rw [hparse]
      dsimp only
      rw [if_neg (by push_neg; exact ⟨hmagic, by omega, hflags⟩),
        if_neg (by omega), hcopy]
      dsimp only
      rw [hwrite]
    constructor
    · unfold Bootable.load
      rw [h64]
      dsimp only
      rw [h32]
      dsimp only
      rw [hbz]
    · intro i hi
      have hfr := (copy_to_guest_bounds.2 _ _ _ _ hcopy).2.2.1 i (by exact hi)
      rw [hfr]
      rfl
  · intro memory kernel params hdr hparse hbad
    unfold load_bz_image
    rw [hparse]
    dsimp only
    rw [if_pos hbad]

/-- C7: once ELF64 is rejected and the kernel parses as ELF32 (and the
parameter-block writes fit), `Bootable::load` yields a `Multiboot`
`Bootable` exactly when some aligned `u32` in the first
`min(len, 8192)` bytes equals `0x1BADB002`, and a `Linux32` `Bootable`
otherwise — both with `entry_addr = e_entry`. -/
theorem elf32_multiboot_selection :
    ∀ (memory : Mem) (kernel : ByteStr) (params : KernelParams) (e1 : Err)
      (m1 m2 mMB mLX : Mem) (exe : LoadedExecutable) (paMB paLX : Nat),
      load_elf64 memory kernel = (.err e1, m1) →
      load_elf32 m1 kernel = (.ok exe, m2) →
      write_multiboot_info m2 exe.max_addr params = (.ok paMB, mMB) →
      write_linux_boot_params m2 default_setup_header exe.max_addr params =
        (.ok paLX, mLX) →
      (multibootMagicFound kernel = true →
        (Bootable.load memory kernel params).1 =
          .ok ⟨.multiboot, exe.entry_addr, paMB⟩) ∧
      (multibootMagicFound kernel = false →
        (Bootable.load memory kernel params).1 =
          .ok ⟨.linux32, exe.entry_addr, paLX⟩) := by
  intro memory kernel params e1 m1 m2 mMB mLX exe paMB paLX h64 h32 hMB hLX
  constructor
  · intro hmb
    unfold Bootable.load
    rw [h64]
    dsimp only
    rw [h32]
    dsimp only
    rw [if_pos (by simp [hmb]), hMB]
  · intro hmb
    unfold Bootable.load
    rw [h64]
    dsimp only
    rw [h32]
    dsimp only
    rw [if_neg (by simp [hmb]), hLX]

/-- A 4096-byte bzImage first page: `setup_sects = 4` at 0x1f1,
`"HdrS"` at 0x202, version 0x020d at 0x206, `loadflags = 1` at 0x211,
`code32_start = 0x10_0000` at 0x214 (little-endian), all other bytes
zero. -/
def bzTestKernel : ByteStr :=
  ⟨4096, fun i =>
    if i = 0x1f1 then 4
    else if i = 0x202 then 0x48
    else if i = 0x203 then 0x64
    else if i = 0x204 then 0x72
    else if i = 0x205 then 0x53
    else if i = 0x206 then 0x0d
    else if i = 0x207 then 0x02
    else if i = 0x211 then 1
    else if i = 0x216 then 0x10
    else 0⟩

def bzTestHdr : SetupHeader where
  setup_sects := 4
  boot_flag := 0
  header := 0x53726448
  version := 0x20d
  type_of_loader := 0
  loadflags := 1
  code32_start := 0x100000
  ramdisk_image := 0
  ramdisk_size := 0
  heap_end_ptr := 0
  cmd_line_ptr := 0
  initrd_addr_max := 0
  kernel_alignment := 0
  cmdline_size := 0

set_option maxRecDepth 4000 in
/-- C2 witness: the concrete bzImage boots `Linux32` at `0x10_0000`
with the zero page at `0x10_0600`, via the theorem. -/
theorem bz_image_load_witness :
    (Bootable.load ⟨0x200000, fun _ => 0⟩ bzTestKernel emptyParams).1 =
      .ok ⟨.linux32, 0x100000, 0x100600⟩ := by
  exact (bz_image_load.1 ⟨0x200000, fun _ => 0⟩ bzTestKernel emptyParams bzTestHdr
    .invalidKernelImageFormat .invalidKernelImageFormat _ _ _ _ 0x100600
    (by decide) (by decide) (by decide) (by decide) rfl rfl (by decide) rfl rfl).1

/-- An 88-byte ELF32 with one `PT_LOAD` of 4 bytes at `0x10_0000`,
whose loaded content at offset 84 is the Multiboot header magic. -/
def mbTestKernel : ByteStr :=
  bytesOfList (elf32EhdrBytes 0x100000 52 1 ++ phdr32Bytes 1 84 0x100000 4 4 ++
    u32le 0x1BADB002)

set_option maxRecDepth 4000 in
/-- C7 witness: the concrete Multiboot-flagged ELF32 boots `Multiboot`
at its `e_entry`, via the theorem. -/
theorem elf32_multiboot_selection_witness :
    (Bootable.load ⟨0x200000, fun _ => 0⟩ mbTestKernel emptyParams).1 =
      .ok ⟨.multiboot, 0x100000, 0x100004⟩ := by
  exact (elf32_multiboot_selection ⟨0x200000, fun _ => 0⟩ mbTestKernel emptyParams
    .invalidKernelImageFormat _ _ _ _ ⟨0x100000, 0x100004⟩ 0x100004 _
    rfl rfl rfl rfl).1 (by decide)

end Microcosm
